import Mathlib

/-!
Shallow embedding of the zulu library: the DateTime class of zulu/utc.py and the
Delta class of zulu/timedelta.py, together with the parts of the host platform
that this code calls (CPython's datetime.timedelta and datetime.datetime, and
pytz timezone localization).

Modelling conventions:
* CPython stores a timedelta as a normalized (days, seconds, microseconds)
  triple with 0 ≤ seconds < 86400 and 0 ≤ microseconds < 10^6.  That triple is
  in bijection with the total signed microsecond count, which we store
  directly; the three component accessors recover the triple by floor
  division, exactly as the normalization computes it.
* Python binary64 floats are modelled as the exact dyadic rationals they
  denote; every float-producing operation applies `fl64`, rounding the exact
  rational result to a 53-bit significand with ties to even, which is IEEE-754
  round-to-nearest in the normal range (the magnitudes arising here can
  neither overflow nor go subnormal).
* Fallible Python code (OverflowError, ValueError, ZeroDivisionError, pytz
  AmbiguousTimeError / NonExistentTimeError) is modelled with Except.
* pytz zones are modelled by the data the IANA database gives them: a
  piecewise-constant UTC-offset function of the absolute instant.
-/

namespace Zulu

/-! ### Python errors -/

inductive Err where
  | overflow
  | zeroDivision
  | valueRange
  | ambiguousTime
  | nonExistentTime
  deriving DecidableEq

instance exceptDecEq {ε α : Type} [DecidableEq ε] [DecidableEq α] :
    DecidableEq (Except ε α)
  | .ok a, .ok b =>
      if h : a = b then .isTrue (by rw [h]) else .isFalse (by simp [h])
  | .error a, .error b =>
      if h : a = b then .isTrue (by rw [h]) else .isFalse (by simp [h])
  | .ok _, .error _ => .isFalse (by simp)
  | .error _, .ok _ => .isFalse (by simp)

/-! ### Binary64 floats, represented exactly

A Python float is a dyadic rational m * 2^e.  We store the pair (m, e) in
canonical form — |m| in [2^52, 2^53), or m = e = 0 — so that equal float
values are structurally equal, and implement the IEEE-754 conversions with
integer arithmetic only (the kernel can evaluate them on literals). -/

/-- A binary64 value m * 2^e, canonical (|m| ∈ [2^52, 2^53) or m = e = 0).
The magnitudes arising in zulu never overflow or enter the subnormal range,
so exponent bounds are not modelled. -/
structure Float64 where
  m : ℤ
  e : ℤ
  deriving DecidableEq

/-- The exact rational value of a float. -/
def Float64.toRat (f : Float64) : ℚ := (f.m : ℚ) * (2:ℚ) ^ f.e

/-- Fuel-driven floor base-2 logarithm on naturals.  With fuel ≥ n it computes
the greatest k with 2^k ≤ n (for n ≥ 1); structural recursion on the fuel lets
the kernel evaluate it on literals. -/
def log2fuel : ℕ → ℕ → ℕ
  | 0, _ => 0
  | fuel + 1, n => if n < 2 then 0 else log2fuel fuel (n / 2) + 1

/-- Division of naturals rounding the exact quotient to the nearest integer,
ties to even. -/
def divRoundHalfEven (p q : ℕ) : ℕ :=
  let d := p / q
  let r := p % q
  if 2 * r < q then d
  else if q < 2 * r then d + 1
  else if d % 2 = 0 then d else d + 1

/-- The floor base-2 logarithm of n / b for n, b ≥ 1: it is k1 - k2 or
k1 - k2 - 1 for the integer logarithms k1 of n and k2 of b, and one
comparison decides which. -/
def floatScaleExp (n b : ℕ) : ℤ :=
  if (if log2fuel b b ≤ log2fuel n n
      then b * 2 ^ (log2fuel n n - log2fuel b b) ≤ n
      else b ≤ n * 2 ^ (log2fuel b b - log2fuel n n))
  then (log2fuel n n : ℤ) - log2fuel b b
  else (log2fuel n n : ℤ) - log2fuel b b - 1

/-- The half-even rounding of n / (b * 2^e), by integer division at the
appropriate scale. -/
def floatRoundMant (n b : ℕ) (e : ℤ) : ℕ :=
  if 0 ≤ e then divRoundHalfEven n (b * 2 ^ e.toNat)
  else divRoundHalfEven (n * 2 ^ (-e).toNat) b

/-- The binary64 value nearest to a / b (b > 0), ties to even: IEEE-754
round-to-nearest of an exact rational, as Python's correctly rounded int/int
true division and every other single float operation produce.  The mantissa
is the half-even rounding of |a|/b scaled into [2^52, 2^53], and 2^53
renormalizes upward. -/
def floatOfRatParts (a : ℤ) (b : ℕ) : Float64 :=
  if a = 0 ∨ b = 0 then ⟨0, 0⟩
  else if floatRoundMant a.natAbs b (floatScaleExp a.natAbs b - 52) = 2 ^ 53 then
    ⟨if a < 0 then -(2 ^ 52) else 2 ^ 52, floatScaleExp a.natAbs b - 52 + 1⟩
  else
    ⟨if a < 0 then -(floatRoundMant a.natAbs b (floatScaleExp a.natAbs b - 52) : ℤ)
      else (floatRoundMant a.natAbs b (floatScaleExp a.natAbs b - 52) : ℤ),
     floatScaleExp a.natAbs b - 52⟩

/-- Float true division of two integers (Python int / int, correctly
rounded). -/
def floatDiv (a b : ℤ) : Float64 :=
  if b < 0 then floatOfRatParts (-a) (-b).toNat else floatOfRatParts a b.toNat

/-- Round the value of a float to the nearest integer, ties to even (the
final microsecond rounding CPython applies to accumulated fractions). -/
def Float64.roundHE (f : Float64) : ℤ :=
  if 0 ≤ f.e then f.m * 2 ^ f.e.toNat
  else if f.m < 0 then -(divRoundHalfEven f.m.natAbs (2 ^ (-f.e).toNat) : ℤ)
  else (divRoundHalfEven f.m.natAbs (2 ^ (-f.e).toNat) : ℤ)

/-- The float t * 1e6 (one IEEE multiplication, correctly rounded; 10^6 is
exactly representable). -/
def floatTimes1e6 (t : Float64) : Float64 :=
  if 0 ≤ t.e then floatOfRatParts (t.m * 1000000 * 2 ^ t.e.toNat) 1
  else floatOfRatParts (t.m * 1000000) (2 ^ (-t.e).toNat)

/-! ### Host platform: datetime.timedelta -/

/-- The microseconds in one day. -/
def usPerDay : ℤ := 86400000000

/-- The microseconds in one second. -/
def usPerSecond : ℤ := 1000000

/-- A datetime.timedelta value, stored as its total signed count of
microseconds (in bijection with CPython's normalized triple). -/
structure Timedelta where
  us : ℤ
  deriving DecidableEq

/-- The normalized days component: floor division as in CPython. -/
def Timedelta.days (t : Timedelta) : ℤ := t.us.fdiv usPerDay

/-- The normalized seconds component, in [0, 86400). -/
def Timedelta.seconds (t : Timedelta) : ℤ := (t.us.fmod usPerDay).fdiv usPerSecond

/-- The normalized microseconds component, in [0, 10^6). -/
def Timedelta.microseconds (t : Timedelta) : ℤ := t.us.fmod usPerSecond

/-- Total microseconds of timedelta.min = timedelta(-999999999). -/
def tdMinUs : ℤ := -999999999 * 86400000000

/-- Total microseconds of timedelta.max
    = timedelta(days=999999999, hours=23, minutes=59, seconds=59,
    microseconds=999999). -/
def tdMaxUs : ℤ := 999999999 * 86400000000 + 86399999999

/-- CPython rejects any timedelta whose normalized days component falls
outside [-999999999, 999999999] with OverflowError; on the total microsecond
count that is exactly the interval [tdMinUs, tdMaxUs]. -/
def tdCheck (us : ℤ) : Except Err Timedelta :=
  if tdMinUs ≤ us ∧ us ≤ tdMaxUs then .ok ⟨us⟩ else .error .overflow

/-- The datetime.timedelta constructor on integer arguments
    timedelta(days, seconds, microseconds, milliseconds, minutes, hours,
    weeks): all units are merged into microseconds, normalized, and
    range-checked. -/
def tdCtor (days seconds microseconds milliseconds minutes hours weeks : ℤ) :
    Except Err Timedelta :=
  tdCheck ((days + 7 * weeks) * usPerDay
    + (seconds + 60 * minutes + 3600 * hours) * usPerSecond
    + milliseconds * 1000 + microseconds)

/-- timedelta.total_seconds(): the Python expression
    ((days*86400 + seconds)*10**6 + microseconds) / 10**6
    whose final step is int/int true division, returning the correctly
    rounded binary64. -/
def Timedelta.total_seconds (t : Timedelta) : Float64 :=
  floatOfRatParts ((t.days * 86400 + t.seconds) * 1000000 + t.microseconds) 1000000

/-- The integral part of a float with negative exponent, truncated toward
zero as C modf truncates. -/
def floatIpart (f : Float64) : ℤ :=
  if f.m < 0 then -((f.m.natAbs / 2 ^ (-f.e).toNat : ℕ) : ℤ)
  else ((f.m.natAbs / 2 ^ (-f.e).toNat : ℕ) : ℤ)

/-- The datetime.timedelta constructor on a float seconds argument
    timedelta(seconds=f): CPython splits f into integral and fractional part
    (modf, truncation toward zero), turns the fraction into microseconds with
    one binary64 multiplication by 10^6, rounds the leftover half-to-even,
    and range-checks the normalized result.  For a nonnegative exponent the
    float is integer-valued and the fraction is zero. -/
def tdFromFloatSeconds (f : Float64) : Except Err Timedelta :=
  if 0 ≤ f.e then tdCheck (f.m * 2 ^ f.e.toNat * usPerSecond)
  else
    tdCheck (floatIpart f * usPerSecond
      + (floatOfRatParts ((f.m - floatIpart f * 2 ^ (-f.e).toNat) * 1000000)
          (2 ^ (-f.e).toNat)).roundHE)

/-- CPython _divide_and_round(a, b): q, r = divmod(a, b) (Python floor
divmod); round the quotient half to even. -/
def divideAndRound (a b : ℤ) : ℤ :=
  let q := a.fdiv b
  let r := a.fmod b * 2
  let greaterThanHalf := if 0 < b then b < r else r < b
  if greaterThanHalf ∨ (r = b ∧ q.fmod 2 = 1) then q + 1 else q

/-- Python comparison of timedelta values compares the total microsecond
counts. -/
def Timedelta.lt (a b : Timedelta) : Prop := a.us < b.us

instance (a b : Timedelta) : Decidable (Timedelta.lt a b) := by
  unfold Timedelta.lt; infer_instance

/-! ### zulu/timedelta.py: the Delta class -/

/-- A zulu Delta: a subclass of timedelta with the same stored data.  Wrapping
the triple in a distinct structure models the distinct Python runtime class. -/
structure Delta where
  td : Timedelta
  deriving DecidableEq

/-- Delta.fromtimedelta(delta) = cls(seconds=delta.total_seconds()). -/
def Delta.fromtimedelta (t : Timedelta) : Except Err Delta :=
  (tdFromFloatSeconds t.total_seconds).map Delta.mk

/-- A Python value as produced by the arithmetic methods, tagged with its
runtime class: pyTd is exactly class datetime.timedelta, pyDelta is class
zulu.Delta (a timedelta subclass), pyInt / pyFloat are the number classes,
pyPair is a 2-tuple. -/
inductive PyNum where
  | pyTd (t : Timedelta)
  | pyDelta (d : Delta)
  | pyInt (n : ℤ)
  | pyFloat (q : Float64)
  | pyPair (a b : PyNum)
  deriving DecidableEq

/-- One item of the tuple branch of _asdelta:
    Delta.fromtimedelta(item) if isinstance(item, timedelta) else item.
    Both pyTd and pyDelta are isinstance of timedelta. -/
def asdeltaItem : PyNum → Except Err PyNum
  | .pyTd t => (Delta.fromtimedelta t).map .pyDelta
  | .pyDelta d => (Delta.fromtimedelta d.td).map .pyDelta
  | v => .ok v

/-- The _asdelta decorator applied to a result value: a timedelta result is
re-wrapped through Delta.fromtimedelta, a tuple result has each timedelta
item re-wrapped, anything else passes through unchanged. -/
def asdeltaVal : PyNum → Except Err PyNum
  | .pyTd t => (Delta.fromtimedelta t).map .pyDelta
  | .pyDelta d => (Delta.fromtimedelta d.td).map .pyDelta
  | .pyPair a b => do
      let a2 ← asdeltaItem a
      let b2 ← asdeltaItem b
      pure (.pyPair a2 b2)
  | v => .ok v

/-- Delta.__add__ = _asdelta(timedelta.__add__) on two Delta operands. -/
def Delta.add (a b : Delta) : Except Err PyNum := do
  asdeltaVal (.pyTd (← tdCheck (a.td.us + b.td.us)))

/-- Delta.__radd__ = _asdelta(timedelta.__radd__); timedelta.__radd__ is
timedelta.__add__, so the reflected addition runs the same computation. -/
def Delta.radd (a b : Delta) : Except Err PyNum := do
  asdeltaVal (.pyTd (← tdCheck (b.td.us + a.td.us)))

/-- Delta.__sub__ = _asdelta(timedelta.__sub__) on two Delta operands. -/
def Delta.sub (a b : Delta) : Except Err PyNum := do
  asdeltaVal (.pyTd (← tdCheck (a.td.us - b.td.us)))

/-- Delta.__mul__ = _asdelta(timedelta.__mul__) with an int operand. -/
def Delta.mulInt (a : Delta) (k : ℤ) : Except Err PyNum := do
  asdeltaVal (.pyTd (← tdCheck (a.td.us * k)))

/-- Delta.__rmul__ = _asdelta(timedelta.__rmul__) with an int operand. -/
def Delta.rmulInt (a : Delta) (k : ℤ) : Except Err PyNum := do
  asdeltaVal (.pyTd (← tdCheck (k * a.td.us)))

/-- Delta.__floordiv__ = _asdelta(timedelta.__floordiv__) on two Delta
operands: the native result self // other is the plain int
self._to_microseconds() // other._to_microseconds(). -/
def Delta.floordivD (a b : Delta) : Except Err PyNum :=
  if b.td.us = 0 then .error .zeroDivision
  else asdeltaVal (.pyInt (a.td.us.fdiv b.td.us))

/-- Delta.__floordiv__ with an int operand: the native result is
timedelta(0, 0, usdiv) with floor division of the microseconds. -/
def Delta.floordivInt (a : Delta) (k : ℤ) : Except Err PyNum := do
  if k = 0 then .error .zeroDivision
  else asdeltaVal (.pyTd (← tdCheck (a.td.us.fdiv k)))

/-- Delta.__truediv__ = _asdelta(timedelta.__truediv__) on two Delta
operands: the native result is the float quotient of the two microsecond
counts. -/
def Delta.truedivD (a b : Delta) : Except Err PyNum :=
  if b.td.us = 0 then .error .zeroDivision
  else asdeltaVal (.pyFloat (floatDiv a.td.us b.td.us))

/-- Delta.__truediv__ with an int operand: the native result is
timedelta(0, 0, _divide_and_round(us, k)). -/
def Delta.truedivInt (a : Delta) (k : ℤ) : Except Err PyNum := do
  if k = 0 then .error .zeroDivision
  else asdeltaVal (.pyTd (← tdCheck (divideAndRound a.td.us k)))

/-- Delta.__mod__ = _asdelta(timedelta.__mod__) on two Delta operands: the
native result is timedelta(0, 0, us mod), with Python sign-of-divisor
remainder. -/
def Delta.modD (a b : Delta) : Except Err PyNum := do
  if b.td.us = 0 then .error .zeroDivision
  else asdeltaVal (.pyTd (← tdCheck (a.td.us.fmod b.td.us)))

/-- Delta.__divmod__ = _asdelta(timedelta.__divmod__) on two Delta operands:
the native result is the tuple (q, timedelta(0, 0, r)) with
q, r = divmod(us_a, us_b). -/
def Delta.divmodD (a b : Delta) : Except Err PyNum := do
  if b.td.us = 0 then .error .zeroDivision
  else asdeltaVal (.pyPair (.pyInt (a.td.us.fdiv b.td.us))
    (.pyTd (← tdCheck (a.td.us.fmod b.td.us))))

/-- Delta.min = Delta(-999999999): the value bound to the class attribute. -/
def Delta.min : Delta := ⟨⟨tdMinUs⟩⟩

/-- Delta.max = Delta(days=999999999, hours=23, minutes=59, seconds=59,
microseconds=999999). -/
def Delta.max : Delta := ⟨⟨tdMaxUs⟩⟩

/-- Delta.resolution = Delta(microseconds=1). -/
def Delta.resolution : Delta := ⟨⟨1⟩⟩

/-- The native bound constant timedelta.min as CPython defines it. -/
def timedeltaMin : Timedelta := ⟨tdMinUs⟩

/-- The native bound constant timedelta.max as CPython defines it. -/
def timedeltaMax : Timedelta := ⟨tdMaxUs⟩

/-- The native constant timedelta.resolution = timedelta(microseconds=1). -/
def timedeltaResolution : Timedelta := ⟨1⟩

/-! ### Host platform: the proleptic Gregorian calendar of datetime.date -/

/-- Leap year test of the Gregorian calendar (CPython _is_leap). -/
def isLeap (y : ℕ) : Bool := y % 4 == 0 && (y % 100 != 0 || y % 400 == 0)

/-- CPython _DAYS_IN_MONTH: the length of month m in a non-leap year. -/
def daysInMonthTable (m : ℕ) : ℕ :=
  match m with
  | 1 => 31 | 2 => 28 | 3 => 31 | 4 => 30 | 5 => 31 | 6 => 30
  | 7 => 31 | 8 => 31 | 9 => 30 | 10 => 31 | 11 => 30 | 12 => 31
  | _ => 0

/-- CPython _days_in_month: the length of month m of year y. -/
def daysInMonth (y m : ℕ) : ℕ :=
  if m = 2 ∧ isLeap y then 29 else daysInMonthTable m

/-- CPython _DAYS_BEFORE_MONTH: days in the year preceding month m, before
any leap adjustment. -/
def daysBeforeMonthTable (m : ℕ) : ℕ :=
  match m with
  | 1 => 0 | 2 => 31 | 3 => 59 | 4 => 90 | 5 => 120 | 6 => 151
  | 7 => 181 | 8 => 212 | 9 => 243 | 10 => 273 | 11 => 304 | 12 => 334
  | _ => 0

/-- CPython _days_before_month. -/
def daysBeforeMonth (y m : ℕ) : ℕ :=
  daysBeforeMonthTable m + (if 2 < m ∧ isLeap y then 1 else 0)

/-- CPython _days_before_year: days before January 1st of year y. -/
def daysBeforeYear (y : ℕ) : ℕ :=
  365 * (y - 1) + (y - 1) / 4 - (y - 1) / 100 + (y - 1) / 400

/-- CPython _ymd2ord: proleptic Gregorian ordinal of the date, with
0001-01-01 as day 1. -/
def ymd2ord (y m d : ℕ) : ℕ := daysBeforeYear y + daysBeforeMonth y m + d

/-- CPython _MAXORDINAL = the ordinal of 9999-12-31. -/
def maxOrdinal : ℕ := 3652059

/-- The trailing month/day computation of CPython _ord2ymd, on the day of
year n0 (0-based) and the leap flag: the month is estimated as
(n0 + 50) >> 5 and corrected downward at most once against
_DAYS_BEFORE_MONTH / _DAYS_IN_MONTH. -/
def ord2ymdDayMonth (n0 : ℕ) (leap : Bool) : ℕ × ℕ :=
  let month0 := (n0 + 50) / 32
  let prec0 := daysBeforeMonthTable month0 + (if 2 < month0 ∧ leap = true then 1 else 0)
  let month := if n0 < prec0 then month0 - 1 else month0
  let preceding :=
    if n0 < prec0 then
      prec0 - (daysInMonthTable (month0 - 1)
        + (if month0 - 1 = 2 ∧ leap = true then 1 else 0))
    else prec0
  (month, n0 - preceding + 1)

/-- CPython _ord2ymd: (year, month, day) from a proleptic Gregorian ordinal.
The divisor chain peels 400-year, 100-year, 4-year and 1-year blocks off
n - 1; the two special quotients 4 mark the trailing Dec 31 of a leap
year. -/
def ord2ymd (nOrd : ℕ) : ℕ × ℕ × ℕ :=
  let n := nOrd - 1
  let n400 := n / 146097
  let r400 := n % 146097
  let n100 := r400 / 36524
  let r100 := r400 % 36524
  let n4 := r100 / 1461
  let r4 := r100 % 1461
  let n1 := r4 / 365
  let n0 := r4 % 365
  let year := n400 * 400 + 1 + n100 * 100 + n4 * 4 + n1
  if n1 = 4 ∨ n100 = 4 then (year - 1, 12, 31)
  else
    let leap : Bool := n1 == 3 && (n4 != 24 || n100 == 3)
    let md := ord2ymdDayMonth n0 leap
    (year, md.1, md.2)

/-- Decidability of the bounded month/day inversion statement, registered
explicitly (instance search does not find the nested bounded-forall shape). -/
instance ballMonthDayInv : Decidable (∀ m < 13, ∀ d < 32, ∀ leap : Bool,
    1 ≤ m → 1 ≤ d →
    d ≤ daysInMonthTable m + (if m = 2 ∧ leap = true then 1 else 0) →
    ord2ymdDayMonth
      (daysBeforeMonthTable m + (if 2 < m ∧ leap = true then 1 else 0) + d - 1)
      leap = (m, d)) := by
  apply Nat.decidableBallLT

/-- Decidability of the bounded day-366 statement, registered explicitly. -/
instance ballDay366 : Decidable (∀ m < 13, ∀ d < 32, ∀ leap : Bool,
    1 ≤ m → 1 ≤ d →
    d ≤ daysInMonthTable m + (if m = 2 ∧ leap = true then 1 else 0) →
    daysBeforeMonthTable m + (if 2 < m ∧ leap = true then 1 else 0) + d = 366 →
    leap = true ∧ m = 12 ∧ d = 31) := by
  refine @Nat.decidableBallLT 13 _ ?_
  intro m hm
  refine @Nat.decidableBallLT 32 _ ?_
  intro d hd
  infer_instance

/-! ### Host platform: datetime.datetime -/

/-- The stored calendar fields of a datetime.datetime (without tzinfo). -/
structure NaiveDT where
  year : ℕ
  month : ℕ
  day : ℕ
  hour : ℕ
  minute : ℕ
  second : ℕ
  microsecond : ℕ
  deriving DecidableEq

/-- CPython _check_date_fields and _check_time_fields: the constructor
raises ValueError outside these ranges (MINYEAR = 1, MAXYEAR = 9999). -/
def NaiveDT.valid (n : NaiveDT) : Prop :=
  1 ≤ n.year ∧ n.year ≤ 9999 ∧ 1 ≤ n.month ∧ n.month ≤ 12 ∧
  1 ≤ n.day ∧ n.day ≤ daysInMonth n.year n.month ∧
  n.hour ≤ 23 ∧ n.minute ≤ 59 ∧ n.second ≤ 59 ∧ n.microsecond ≤ 999999

instance (n : NaiveDT) : Decidable n.valid := by
  unfold NaiveDT.valid; infer_instance

/-- The date-field part of validity. -/
def validYMD (y m d : ℕ) : Prop :=
  1 ≤ y ∧ y ≤ 9999 ∧ 1 ≤ m ∧ m ≤ 12 ∧ 1 ≤ d ∧ d ≤ daysInMonth y m

instance (y m d : ℕ) : Decidable (validYMD y m d) := by
  unfold validYMD; infer_instance

/-- Microseconds of a naive datetime since 0001-01-01T00:00:00 (the value
CPython computes as toordinal() and the time of day whenever it does
arithmetic). -/
def NaiveDT.toUs (n : NaiveDT) : ℕ :=
  (ymd2ord n.year n.month n.day - 1) * 86400000000
    + ((n.hour * 60 + n.minute) * 60 + n.second) * 1000000 + n.microsecond

/-- The naive datetime of a microsecond count since 0001-01-01T00:00:00:
date from the ordinal by _ord2ymd, time of day by successive division. -/
def usToNaive (t : ℕ) : NaiveDT :=
  let dayUs := t % 86400000000
  let ymd := ord2ymd (t / 86400000000 + 1)
  { year := ymd.1, month := ymd.2.1, day := ymd.2.2,
    hour := dayUs / 3600000000,
    minute := dayUs / 60000000 % 60,
    second := dayUs / 1000000 % 60,
    microsecond := dayUs % 1000000 }

/-- Conversion of an instant to calendar fields, with CPython's OverflowError
outside ordinals [1, maxOrdinal] (as date.fromordinal and datetime
arithmetic check). -/
def usToNaiveE (t : ℤ) : Except Err NaiveDT :=
  if 0 ≤ t ∧ t < 3652059 * 86400000000 then .ok (usToNaive t.toNat)
  else .error .overflow

/-! ### pytz timezones -/

/-- A pytz DstTzInfo-style zone: a base UTC offset (microseconds) and a
sorted list of (transition instant in UTC microseconds since 0001-01-01,
offset in force from that instant) pairs — the data the IANA database
supplies. -/
structure PytzZone where
  baseOff : ℤ
  trans : List (ℤ × ℤ)
  deriving DecidableEq

/-- The UTC offset the zone applies at absolute instant u. -/
def offsetAtUtc (z : PytzZone) (u : ℤ) : ℤ :=
  z.trans.foldl (fun acc p => if p.1 ≤ u then p.2 else acc) z.baseOff

/-- Every offset the zone ever uses. -/
def possibleOffsets (z : PytzZone) : List ℤ := z.baseOff :: z.trans.map Prod.snd

/-- Offset o is a valid reading of local wall-clock microseconds w: the zone
uses o, and at the absolute instant w - o the zone's offset really is o. -/
def ValidOffset (z : PytzZone) (w o : ℤ) : Prop :=
  o ∈ possibleOffsets z ∧ offsetAtUtc z (w - o) = o

instance (z : PytzZone) (w o : ℤ) : Decidable (ValidOffset z w o) := by
  unfold ValidOffset; infer_instance

/-- A wall-clock reading with two distinct valid offsets (a fall-back
overlap). -/
def Ambiguous (z : PytzZone) (w : ℤ) : Prop :=
  ∃ o1 o2, ValidOffset z w o1 ∧ ValidOffset z w o2 ∧ o1 ≠ o2

/-- A wall-clock reading with no valid offset (a spring-forward gap). -/
def Nonexistent (z : PytzZone) (w : ℤ) : Prop := ∀ o, ¬ ValidOffset z w o

/-- The distinct candidate offsets pytz finds for local wall-clock
microseconds w. -/
def localizeOffsets (z : PytzZone) (w : ℤ) : List ℤ :=
  ((possibleOffsets z).filter (fun o => offsetAtUtc z (w - o) = o)).dedup

/-- pytz strict localization, zone.localize(naive, is_dst=None): raises
NonExistentTimeError on no candidate offset, AmbiguousTimeError on more than
one, and otherwise fixes the unique candidate. -/
def localize (z : PytzZone) (w : ℤ) : Except Err ℤ :=
  match localizeOffsets z w with
  | [] => .error .nonExistentTime
  | [o] => .ok o
  | _ => .error .ambiguousTime

/-- pytz.UTC: constant zero offset, never ambiguous or nonexistent. -/
def utcZone : PytzZone := ⟨0, []⟩

/-- A tzinfo object attached to an aware datetime: the result of a pytz
localization (the zone together with the offset the localization fixed), or
a fixed-offset tzinfo (datetime.timezone style, which has no localize
attribute). -/
inductive Tz where
  | localized (z : PytzZone) (off : ℤ)
  | fixed (off : ℤ)
  deriving DecidableEq

/-- The utcoffset() of an attached tzinfo. -/
def Tz.utcoffset : Tz → ℤ
  | .localized _ o => o
  | .fixed o => o

/-- pytz.UTC attached to a datetime. -/
def tzUTC : Tz := .localized utcZone 0

/-- A tzinfo argument as the DateTime constructor receives it: a pytz-style
zone (which has a localize attribute) or a fixed-offset tzinfo (which has
none).  Identifier strings resolve through pytz.timezone to the former. -/
inductive TzArg where
  | pytzZone (z : PytzZone)
  | fixedZone (off : ℤ)
  deriving DecidableEq

/-- An attached tzinfo handed back to a constructor as a zone argument. -/
def tzToArg : Tz → TzArg
  | .localized z _ => .pytzZone z
  | .fixed o => .fixedZone o

/-- An aware (or, with tz = none, naive) datetime.datetime: stored calendar
fields plus the attached tzinfo. -/
structure Datetime where
  naive : NaiveDT
  tz : Option Tz
  deriving DecidableEq

/-- The absolute instant of an aware datetime: UTC microseconds since
0001-01-01T00:00:00 UTC. -/
def Datetime.instant (d : Datetime) : ℤ :=
  (d.naive.toUs : ℤ) - (d.tz.map Tz.utcoffset).getD 0

/-- CPython datetime.astimezone to a resolved zone, composed with the
zone's fromutc: the wall clock is re-expressed at the same absolute instant
with the offset the target zone applies there (pytz fromutc picks the
offset in force at the UTC instant). -/
def awareAstimezone (d : Datetime) (target : TzArg) : Except Err Datetime :=
  match target with
  | .pytzZone z =>
      let off := offsetAtUtc z d.instant
      (usToNaiveE (d.instant + off)).map (fun nv => ⟨nv, some (.localized z off)⟩)
  | .fixedZone off =>
      (usToNaiveE (d.instant + off)).map (fun nv => ⟨nv, some (.fixed off)⟩)

/-- CPython datetime.__add__ with a timedelta: shift the fields by the
delta's microseconds, keeping tzinfo; OverflowError outside the ordinal
range. -/
def datetimeAddTd (d : Datetime) (t : Timedelta) : Except Err Datetime :=
  (usToNaiveE ((d.naive.toUs : ℤ) + t.us)).map (fun nv => ⟨nv, d.tz⟩)

/-! ### zulu/utc.py: the DateTime class -/

/-- A zulu DateTime object: the single stored field is the UTC-normalized
aware datetime self.__dt, exposed by the datetime property. -/
structure DateTime where
  datetime : Datetime
  deriving DecidableEq

/-- DateTime.__init__(year, month, day, hour=0, minute=0, second=0,
microsecond=0, tzinfo=None): validate the fields (the naive datetime
constructor), localize into the zone argument — a zone with a localize
attribute via strict localize(is_dst=None), any other tzinfo by direct
attachment, no zone meaning pytz.UTC.localize — and store the result
converted to UTC. -/
def DateTime.init (year month day hour minute second microsecond : ℕ)
    (tzinfo : Option TzArg) : Except Err DateTime := do
  let naive := NaiveDT.mk year month day hour minute second microsecond
  if naive.valid then
    let dtLoc : Datetime ←
      match tzinfo with
      | some (.pytzZone z) =>
          (localize z naive.toUs).map (fun off => ⟨naive, some (.localized z off)⟩)
      | some (.fixedZone off) => pure ⟨naive, some (.fixed off)⟩
      | none =>
          (localize utcZone naive.toUs).map
            (fun off => ⟨naive, some (.localized utcZone off)⟩)
    (awareAstimezone dtLoc (.pytzZone utcZone)).map DateTime.mk
  else
    .error .valueRange

/-- DateTime.fromdatetime(dt): rebuild through the primary constructor from
dt's components and tzinfo. -/
def DateTime.fromdatetime (d : Datetime) : Except Err DateTime :=
  DateTime.init d.naive.year d.naive.month d.naive.day d.naive.hour
    d.naive.minute d.naive.second d.naive.microsecond (d.tz.map tzToArg)

/-- DateTime.now() = fromdatetime(datetime.utcnow()); the naive reading of
the current UTC wall clock is a parameter of the model. -/
def DateTime.now (utcnowReading : NaiveDT) : Except Err DateTime :=
  DateTime.fromdatetime ⟨utcnowReading, none⟩

/-- DateTime.parse(obj, formats, default_tz).  Modelled from the spec: the
text parser (zulu/parser.py parse, not among the sources) turns free-form
text into a native instant, which is then normalized through fromdatetime;
the parser's output is a parameter of the model. -/
def DateTime.parse (parsed : Datetime) : Except Err DateTime :=
  DateTime.fromdatetime parsed

/-- The naive datetime of the Unix epoch. -/
def epochNaive : NaiveDT := ⟨1970, 1, 1, 0, 0, 0, 0⟩

/-- DateTime.fromtimestamp(t) =
fromdatetime(datetime.fromtimestamp(t, pytz.UTC)): the host turns the float
t into microseconds after the epoch with half-even rounding and attaches
UTC. -/
def DateTime.fromtimestamp (t : Float64) : Except Err DateTime := do
  let nv ← usToNaiveE ((epochNaive.toUs : ℤ) + (floatTimes1e6 t).roundHE)
  DateTime.fromdatetime ⟨nv, some tzUTC⟩

/-- DateTime.fromordinal(n) = fromdatetime(datetime.fromordinal(n)): a naive
datetime at midnight of proleptic Gregorian day n (ValueError outside the
ordinal range). -/
def DateTime.fromordinal (n : ℕ) : Except Err DateTime :=
  if 1 ≤ n ∧ n ≤ maxOrdinal then
    let ymd := ord2ymd n
    DateTime.fromdatetime ⟨⟨ymd.1, ymd.2.1, ymd.2.2, 0, 0, 0, 0⟩, none⟩
  else .error .valueRange

/-- DateTime.combine(date, time) = fromdatetime(datetime.combine(date,
time)): date fields from the date part, time fields and tzinfo from the
time part. -/
def DateTime.combine (dy dm dd : ℕ) (th tm ts tus : ℕ) (ttz : Option Tz) :
    Except Err DateTime :=
  DateTime.fromdatetime ⟨⟨dy, dm, dd, th, tm, ts, tus⟩, ttz⟩

/-- DateTime.copy() = fromdatetime(self.datetime). -/
def DateTime.copy (d : DateTime) : Except Err DateTime :=
  DateTime.fromdatetime d.datetime

/-- DateTime.offset(days, seconds, microseconds, milliseconds, minutes,
hours, weeks): add the equivalent native timedelta to the stored instant and
rebuild. -/
def DateTime.offset (d : DateTime)
    (days seconds microseconds milliseconds minutes hours weeks : ℤ) :
    Except Err DateTime := do
  let t ← tdCtor days seconds microseconds milliseconds minutes hours weeks
  let moved ← datetimeAddTd d.datetime t
  DateTime.fromdatetime moved

/-- DateTime.__add__ (and the identical __radd__): fromdatetime of
self.datetime + other, for a native timedelta (or Delta) operand. -/
def DateTime.add (d : DateTime) (t : Timedelta) : Except Err DateTime := do
  DateTime.fromdatetime (← datetimeAddTd d.datetime t)

/-- The operand of DateTime.__sub__: a DateTime, a native datetime, or a
duration (timedelta or its subclass Delta). -/
inductive SubOperand where
  | dtObj (b : DateTime)
  | nativeDt (b : Datetime)
  | dur (t : Timedelta)

/-- The result of DateTime.__sub__, tagged with its runtime class. -/
inductive SubResult where
  | srDateTime (d : DateTime)
  | srDelta (d : Delta)
  | srTimedelta (t : Timedelta)
  deriving DecidableEq

/-- DateTime.__sub__: a DateTime operand is unwrapped to its stored
datetime, a native datetime operand is first normalized through
fromdatetime; then self.datetime - other runs, and a datetime result is
re-wrapped through fromdatetime while a timedelta result is returned as
is. -/
def DateTime.subOp (a : DateTime) (other : SubOperand) : Except Err SubResult := do
  match other with
  | .dtObj b =>
      pure (.srTimedelta ⟨a.datetime.instant - b.datetime.instant⟩)
  | .nativeDt b => do
      let nb ← DateTime.fromdatetime b
      pure (.srTimedelta ⟨a.datetime.instant - nb.datetime.instant⟩)
  | .dur t => do
      let moved ← datetimeAddTd a.datetime ⟨-t.us⟩
      (DateTime.fromdatetime moved).map .srDateTime

/-- The module constant _EPOCH = DateTime(1970, 1, 1). -/
def epochDT : DateTime := ⟨⟨epochNaive, some tzUTC⟩⟩

/-- DateTime.timestamp() = (self - _EPOCH).total_seconds(). -/
def DateTime.timestamp (d : DateTime) : Float64 :=
  match DateTime.subOp d (.dtObj epochDT) with
  | .ok (.srTimedelta t) => t.total_seconds
  | _ => ⟨0, 0⟩

/-- DateTime.astimezone(tz) for a resolved zone handle.  Modelled from the
spec: the timezone resolver (zulu/parser.py get_timezone, not among the
sources) passes an already-resolved zone handle through unchanged (the
local-zone sentinel is outside this model); the stored UTC instant is then
re-expressed in that zone. -/
def DateTime.astimezone (d : DateTime) (tz : TzArg) : Except Err Datetime :=
  awareAstimezone d.datetime tz

/-- DateTime.tzinfo: the tzinfo of the stored instant. -/
def DateTime.tzinfo (d : DateTime) : Option Tz := d.datetime.tz

/-- DateTime.__iter__: the 8-tuple (year, month, day, hour, minute, second,
microsecond, tzinfo) of the stored UTC instant, in constructor order. -/
def DateTime.iter (d : DateTime) : ℕ × ℕ × ℕ × ℕ × ℕ × ℕ × ℕ × Option Tz :=
  (d.datetime.naive.year, d.datetime.naive.month, d.datetime.naive.day,
   d.datetime.naive.hour, d.datetime.naive.minute, d.datetime.naive.second,
   d.datetime.naive.microsecond, d.datetime.tz)

/-- The value of one optional replace parameter: the Missing sentinel
(utils.Missing, meaning keep the current component) or an explicitly
supplied value — which for tzinfo may itself be None. -/
inductive ReplArg (α : Type) where
  | missing
  | given (v : α)

/-- The supplied value, or the current one for Missing. -/
def ReplArg.getD {α : Type} : ReplArg α → α → α
  | .missing, d => d
  | .given v, _ => v

/-- DateTime.replace: start from list(self), overwrite exactly the
parameters that were explicitly supplied, and rebuild through the primary
constructor DateTime(*args). -/
def DateTime.replace (d : DateTime)
    (year month day hour minute second microsecond : ReplArg ℕ)
    (tzinfo : ReplArg (Option TzArg)) : Except Err DateTime :=
  DateTime.init
    (year.getD d.datetime.naive.year)
    (month.getD d.datetime.naive.month)
    (day.getD d.datetime.naive.day)
    (hour.getD d.datetime.naive.hour)
    (minute.getD d.datetime.naive.minute)
    (second.getD d.datetime.naive.second)
    (microsecond.getD d.datetime.naive.microsecond)
    (tzinfo.getD (d.datetime.tz.map tzToArg))

/-! ### Runtime-class discriminators and other predicates used by the
theorems -/

/-- Whether a Python value is an instance of class Delta. -/
def PyNum.isDelta : PyNum → Bool
  | .pyDelta _ => true
  | _ => false

/-- Whether a Python value is a plain int. -/
def PyNum.isInt : PyNum → Bool
  | .pyInt _ => true
  | _ => false

/-- Whether a Python value is a float. -/
def PyNum.isFloat : PyNum → Bool
  | .pyFloat _ => true
  | _ => false

/-- Whether a Python value is a pair of a plain int and a Delta. -/
def PyNum.isIntDeltaPair : PyNum → Bool
  | .pyPair (.pyInt _) (.pyDelta _) => true
  | _ => false

/-- Whether a subtraction result is a Delta instance. -/
def SubResult.isDelta : SubResult → Bool
  | .srDelta _ => true
  | _ => false

/-- Whether a subtraction result is a bare native timedelta instance. -/
def SubResult.isTimedelta : SubResult → Bool
  | .srTimedelta _ => true
  | _ => false

/-- The invariant every constructed DateTime satisfies: the stored instant
is tagged with pytz.UTC and holds valid calendar fields. -/
def DateTime.WF (d : DateTime) : Prop :=
  d.datetime.tz = some tzUTC ∧ d.datetime.naive.valid

instance (d : DateTime) : Decidable d.WF := by
  unfold DateTime.WF; infer_instance

/-! ### A concrete DST zone, used to instantiate theorems

The 2020 rules of a US Eastern style zone: UTC-5, jumping to UTC-4 at
2020-03-08T07:00Z (so the local wall clock 02:00..02:59 on 2020-03-08 does
not exist) and back to UTC-5 at 2020-11-01T06:00Z (so the local wall clock
01:00..01:59 on 2020-11-01 occurs twice). -/

/-- Spring-forward transition instant, 2020-03-08T07:00Z. -/
def dstT1 : ℤ := ((NaiveDT.mk 2020 3 8 7 0 0 0).toUs : ℤ)

/-- Fall-back transition instant, 2020-11-01T06:00Z. -/
def dstT2 : ℤ := ((NaiveDT.mk 2020 11 1 6 0 0 0).toUs : ℤ)

/-- The example DST-observing zone. -/
def dstZone : PytzZone :=
  ⟨-5 * 3600000000, [(dstT1, -4 * 3600000000), (dstT2, -5 * 3600000000)]⟩

/-! ## Generic helper lemmas -/

theorem except_bind_ok {α β : Type} {x : Except Err α} {f : α → Except Err β} {b : β} :
    (x >>= f) = .ok b ↔ ∃ a, x = .ok a ∧ f a = .ok b := by
  cases x <;> simp [Bind.bind, Except.bind]

theorem except_map_ok {α β : Type} {x : Except Err α} {g : α → β} {b : β} :
    (x.map g) = .ok b ↔ ∃ a, x = .ok a ∧ g a = b := by
  cases x <;> simp [Except.map]

/-! ## Timedelta lemmas -/

/-- The integer numerator inside total_seconds recombines the normalized
triple into the total microsecond count. -/
theorem ts_inner_eq (t : Timedelta) :
    (t.days * 86400 + t.seconds) * 1000000 + t.microseconds = t.us := by
  unfold Timedelta.days Timedelta.seconds Timedelta.microseconds usPerDay usPerSecond
  rw [Int.fdiv_eq_ediv _ (by norm_num), Int.fdiv_eq_ediv _ (by norm_num),
    Int.fmod_eq_emod _ (by norm_num), Int.fmod_eq_emod _ (by norm_num)]
  omega

/-- total_seconds is the float division of the microsecond count by 10^6. -/
theorem total_seconds_eq (t : Timedelta) :
    t.total_seconds = floatOfRatParts t.us 1000000 := by
  unfold Timedelta.total_seconds
  rw [ts_inner_eq]

/-- A successful _asdelta wrap of a timedelta result is a Delta instance. -/
theorem asdeltaVal_pyTd_ok {t : Timedelta} {r : PyNum}
    (h : asdeltaVal (.pyTd t) = .ok r) : r.isDelta = true := by
  unfold asdeltaVal at h
  obtain ⟨d, -, rfl⟩ := except_map_ok.mp h
  rfl

/-- A successful _asdelta wrap of a divmod tuple is (plain int, Delta). -/
theorem asdeltaVal_pair_ok {n : ℤ} {t : Timedelta} {r : PyNum}
    (h : asdeltaVal (.pyPair (.pyInt n) (.pyTd t)) = .ok r) :
    r.isIntDeltaPair = true := by
  unfold asdeltaVal at h
  obtain ⟨a2, ha, h2⟩ := except_bind_ok.mp h
  obtain ⟨b2, hb, h3⟩ := except_bind_ok.mp h2
  unfold asdeltaItem at ha hb
  obtain ⟨d, -, rfl⟩ := except_map_ok.mp hb
  cases ha
  cases h3
  rfl

/-! ## Binary64 lemmas -/

/-- With enough fuel, log2fuel brackets its argument between consecutive
powers of two. -/
theorem log2fuel_spec (fuel : ℕ) : ∀ n : ℕ, 1 ≤ n → n ≤ fuel →
    2 ^ log2fuel fuel n ≤ n ∧ n < 2 ^ (log2fuel fuel n + 1) := by
  induction fuel with
  | zero => intro n h1 h2; omega
  | succ fuel ih =>
    intro n h1 h2
    simp only [log2fuel]
    split
    · simp only [pow_zero, pow_one]
      omega
    · obtain ⟨ha, hb⟩ := ih (n / 2) (by omega) (by omega)
      rw [pow_succ, pow_succ]
      omega

/-- Half-even division is exact division on divisible arguments. -/
theorem divRoundHalfEven_exact {p q : ℕ} (hq : 0 < q) (hd : q ∣ p) :
    divRoundHalfEven p q = p / q := by
  unfold divRoundHalfEven
  have h0 : p % q = 0 := Nat.mod_eq_zero_of_dvd hd
  simp [h0, hq]

/-- For 1 ≤ b ≤ n, the scale exponent is nonnegative and brackets n / b
between consecutive powers of two. -/
theorem floatScaleExp_spec {n b : ℕ} (hb : 1 ≤ b) (hbn : b ≤ n) :
    0 ≤ floatScaleExp n b ∧
    b * 2 ^ (floatScaleExp n b).toNat ≤ n ∧
    n < b * 2 ^ ((floatScaleExp n b).toNat + 1) := by
  obtain ⟨ha1, ha2⟩ := log2fuel_spec n n (by omega) le_rfl
  obtain ⟨hb1, hb2⟩ := log2fuel_spec b b (by omega) le_rfl
  unfold floatScaleExp
  set k1 := log2fuel n n with hk1
  set k2 := log2fuel b b with hk2
  have hk : k2 ≤ k1 := by
    by_contra hk
    push_neg at hk
    have h2 : (2:ℕ) ^ (k1 + 1) ≤ 2 ^ k2 := Nat.pow_le_pow_right (by omega) (by omega)
    omega
  simp only [if_pos hk]
  have hsplit : (2:ℕ) ^ (k1 + 1) = 2 ^ k2 * 2 ^ (k1 - k2 + 1) := by
    rw [← pow_add]
    congr 1
    omega
  by_cases hA : b * 2 ^ (k1 - k2) ≤ n
  · rw [if_pos hA]
    have ht : ((k1 : ℤ) - k2).toNat = k1 - k2 := by omega
    refine ⟨by omega, ?_, ?_⟩
    · rw [ht]; exact hA
    · rw [ht]
      calc n < 2 ^ (k1 + 1) := ha2
        _ = 2 ^ k2 * 2 ^ (k1 - k2 + 1) := hsplit
        _ ≤ b * 2 ^ (k1 - k2 + 1) := Nat.mul_le_mul_right _ hb1
  · rw [if_neg hA]
    have hklt : k2 < k1 := by
      rcases Nat.lt_or_ge k2 k1 with h | h
      · exact h
      · have heq : k1 = k2 := by omega
        rw [heq] at hA
        simp at hA
        omega
    have ht : ((k1 : ℤ) - k2 - 1).toNat = k1 - k2 - 1 := by omega
    have hsplit2 : (2:ℕ) ^ k1 = 2 ^ (k2 + 1) * 2 ^ (k1 - k2 - 1) := by
      rw [← pow_add]
      congr 1
      omega
    refine ⟨by omega, ?_, ?_⟩
    · rw [ht]
      calc b * 2 ^ (k1 - k2 - 1) ≤ 2 ^ (k2 + 1) * 2 ^ (k1 - k2 - 1) := by
            have hble : b ≤ 2 ^ (k2 + 1) := by omega
            exact Nat.mul_le_mul_right _ hble
        _ = 2 ^ k1 := hsplit2.symm
        _ ≤ n := ha1
    · rw [ht]
      have : k1 - k2 - 1 + 1 = k1 - k2 := by omega
      rw [this]
      omega

/-- Unfolding of roundHE on a literal pair. -/
theorem roundHE_mk (m e : ℤ) : Float64.roundHE ⟨m, e⟩ =
    if 0 ≤ e then m * 2 ^ e.toNat
    else if m < 0 then -(divRoundHalfEven m.natAbs (2 ^ (-e).toNat) : ℤ)
    else (divRoundHalfEven m.natAbs (2 ^ (-e).toNat) : ℤ) := rfl

/-- floatOfRatParts is exact on integer-valued quotients below 2^53: the
float of (v*q)/q rounds back to exactly v. -/
theorem floatOfRatParts_int_exact {v : ℤ} {q : ℕ} (hq : 0 < q)
    (hv : v.natAbs < 2 ^ 53) :
    (floatOfRatParts (v * q) q).roundHE = v := by
  rcases eq_or_ne v 0 with rfl | hv0
  · simp [floatOfRatParts, Float64.roundHE]
  · have hvq0 : v * (q : ℤ) ≠ 0 := by
      intro h
      rcases mul_eq_zero.mp h with h | h
      · exact hv0 h
      · omega
    have hn : (v * (q : ℤ)).natAbs = v.natAbs * q := by
      rw [Int.natAbs_mul, Int.natAbs_ofNat]
    have hva : 1 ≤ v.natAbs := by
      rcases Nat.eq_zero_or_pos v.natAbs with h | h
      · exact absurd (Int.natAbs_eq_zero.mp h) hv0
      · exact h
    have hbn : q ≤ v.natAbs * q := Nat.le_mul_of_pos_left q hva
    unfold floatOfRatParts
    rw [if_neg (by push_neg; exact ⟨hvq0, by omega⟩)]
    rw [hn]
    obtain ⟨hL0, hLlo, hLhi⟩ := floatScaleExp_spec (n := v.natAbs * q) (by omega) hbn
    set L : ℤ := floatScaleExp (v.natAbs * q) q with hLdef
    have hLlo' : 2 ^ L.toNat ≤ v.natAbs := by
      rw [mul_comm v.natAbs q] at hLlo
      exact Nat.le_of_mul_le_mul_left hLlo hq
    have hLhi' : v.natAbs < 2 ^ (L.toNat + 1) := by
      rw [mul_comm v.natAbs q] at hLhi
      exact Nat.lt_of_mul_lt_mul_left hLhi
    have hL52 : L.toNat ≤ 52 := by
      by_contra hgt
      push_neg at hgt
      have h53 : (2:ℕ) ^ 53 ≤ 2 ^ L.toNat := Nat.pow_le_pow_right (by omega) (by omega)
      omega
    have hmant : floatRoundMant (v.natAbs * q) q (L - 52)
        = v.natAbs * 2 ^ (52 - L.toNat) := by
      unfold floatRoundMant
      by_cases he : (0:ℤ) ≤ L - 52
      · have h52 : L.toNat = 52 := by omega
        have het : (L - 52).toNat = 0 := by omega
        rw [if_pos he, het, pow_zero, mul_one,
          divRoundHalfEven_exact hq ⟨v.natAbs, by ring⟩,
          Nat.mul_div_cancel _ hq, h52]
        simp
      · have het : (-(L - 52)).toNat = 52 - L.toNat := by omega
        have hre : v.natAbs * q * 2 ^ (52 - L.toNat)
            = v.natAbs * 2 ^ (52 - L.toNat) * q := by ring
        rw [if_neg he, het, hre,
          divRoundHalfEven_exact hq ⟨v.natAbs * 2 ^ (52 - L.toNat), by ring⟩,
          Nat.mul_div_cancel _ hq]
    have hm53 : v.natAbs * 2 ^ (52 - L.toNat) < 2 ^ 53 := by
      calc v.natAbs * 2 ^ (52 - L.toNat)
          < 2 ^ (L.toNat + 1) * 2 ^ (52 - L.toNat) :=
            Nat.mul_lt_mul_of_lt_of_le hLhi' le_rfl (by positivity)
        _ = 2 ^ 53 := by
            rw [← pow_add]
            congr 1
            omega
    rw [hmant, if_neg (by omega)]
    have hq' : (0:ℤ) < (q : ℤ) := by exact_mod_cast hq
    have hsign : v * (q:ℤ) < 0 ↔ v < 0 := by
      constructor
      · intro hlt
        by_contra hge
        push_neg at hge
        nlinarith
      · intro hlt
        exact mul_neg_of_neg_of_pos hlt hq'
    rw [roundHE_mk]
    by_cases he : (0:ℤ) ≤ L - 52
    · have h0 : 52 - L.toNat = 0 := by omega
      have het : (L - 52).toNat = 0 := by omega
      rw [if_pos he]
      simp only [h0, het, pow_zero, mul_one]
      split
      · rename_i hvq
        have hv1 : v < 0 := hsign.mp hvq
        omega
      · rename_i hvq
        have hv1 : ¬ v < 0 := fun h => hvq (hsign.mpr h)
        omega
    · rw [if_neg he]
      have het : (-(L - 52)).toNat = 52 - L.toNat := by omega
      have hMpos : 0 < v.natAbs * 2 ^ (52 - L.toNat) :=
        Nat.mul_pos hva (pow_pos (by norm_num) _)
      rcases lt_or_ge v 0 with hv1 | hv1
      · rw [if_pos (hsign.mpr hv1), if_pos (by omega), het]
        have hneg : (-((v.natAbs * 2 ^ (52 - L.toNat) : ℕ) : ℤ)).natAbs
            = v.natAbs * 2 ^ (52 - L.toNat) := by
          rw [Int.natAbs_neg, Int.natAbs_ofNat]
        rw [hneg,
          divRoundHalfEven_exact (pow_pos (by norm_num) _) ⟨v.natAbs, by ring⟩,
          Nat.mul_div_cancel _ (pow_pos (by norm_num) _)]
        omega
      · rw [if_neg (fun h => absurd (hsign.mp h) (by omega)),
          if_neg (by omega), het, Int.natAbs_ofNat,
          divRoundHalfEven_exact (pow_pos (by norm_num) _) ⟨v.natAbs, by ring⟩,
          Nat.mul_div_cancel _ (pow_pos (by norm_num) _)]
        omega

/-! ## Claim C8 -/

/-- C8: the three class constants Delta.min, Delta.max, Delta.resolution
(the spec's minimum, maximum, smallest_unit) are Delta instances obtained
from the Delta constructor at the documented arguments, carry exactly the
numeric bounds of native timedelta.min / timedelta.max /
timedelta.resolution, and satisfy Delta.min < Delta(0) < Delta.max with
Delta.resolution equal to exactly one microsecond. -/
theorem c8_bound_constants :
    (tdCtor (-999999999) 0 0 0 0 0 0).map Delta.mk = .ok Delta.min ∧
    (tdCtor 999999999 59 999999 0 59 23 0).map Delta.mk = .ok Delta.max ∧
    (tdCtor 0 0 1 0 0 0 0).map Delta.mk = .ok Delta.resolution ∧
    Delta.min.td = timedeltaMin ∧
    Delta.max.td = timedeltaMax ∧
    Delta.resolution.td = timedeltaResolution ∧
    (tdCtor 0 0 0 0 0 0 0).map Delta.mk = .ok ⟨⟨0⟩⟩ ∧
    Timedelta.lt Delta.min.td ⟨0⟩ ∧
    Timedelta.lt ⟨0⟩ Delta.max.td ∧
    Delta.resolution.td.us = 1 := by
  decide

/-! ## Claim C1 -/

/-- C1 counterexample: subtracting the DateTime for 1970-01-02 (as the
constructor builds it) and the DateTime for 1970-01-01 yields the bare
native timedelta of one day, not a Delta instance — refuting the claim that
DateTime − DateTime returns a Delta. -/
theorem c1_counterexample :
    DateTime.init 1970 1 2 0 0 0 0 none
      = .ok ⟨⟨⟨1970, 1, 2, 0, 0, 0, 0⟩, some tzUTC⟩⟩ ∧
    DateTime.subOp ⟨⟨⟨1970, 1, 2, 0, 0, 0, 0⟩, some tzUTC⟩⟩ (.dtObj epochDT)
      = .ok (.srTimedelta ⟨86400000000⟩) ∧
    (SubResult.srTimedelta ⟨86400000000⟩).isDelta = false ∧
    (SubResult.srTimedelta ⟨86400000000⟩).isTimedelta = true := by
  decide

/-- C1 (amended): subtracting a DateTime (or a compatible native instant,
after its normalization succeeds) returns the bare native timedelta — not a
Delta — whose microsecond count is the difference of the two absolute
instants. -/
theorem c1_amended_sub_returns_native_timedelta :
    (∀ a b : DateTime, DateTime.subOp a (.dtObj b)
        = .ok (.srTimedelta ⟨a.datetime.instant - b.datetime.instant⟩)) ∧
    (∀ (a : DateTime) (b : Datetime) (nb : DateTime),
        DateTime.fromdatetime b = .ok nb →
        DateTime.subOp a (.nativeDt b)
          = .ok (.srTimedelta ⟨a.datetime.instant - nb.datetime.instant⟩)) := by
  refine ⟨fun a b => rfl, fun a b nb h => ?_⟩
  unfold DateTime.subOp
  rw [except_bind_ok]
  exact ⟨nb, h, rfl⟩

/-- C1 amended witness: the second part applied to the epoch DateTime and
the naive native epoch instant. -/
theorem c1_amended_witness :
    DateTime.subOp epochDT (.nativeDt ⟨epochNaive, none⟩)
      = .ok (.srTimedelta ⟨0⟩) := by
  have h : DateTime.fromdatetime ⟨epochNaive, none⟩ = .ok epochDT := by decide
  have h2 := c1_amended_sub_returns_native_timedelta.2 epochDT ⟨epochNaive, none⟩
    epochDT h
  simpa using h2

/-! ## Claim C5 -/

/-- C5 counterexample: floor division of the Delta of two days by the Delta
of one day returns the plain int 2, not a Delta — refuting the claim that
every listed operator applied to Delta operands returns a Delta. -/
theorem c5_counterexample :
    Delta.floordivD ⟨⟨172800000000⟩⟩ ⟨⟨86400000000⟩⟩ = .ok (.pyInt 2) ∧
    (PyNum.pyInt 2).isDelta = false := by
  decide

/-- C5 (amended): every arithmetic operator on Delta operands whose native
result is a duration (add, right-add, subtract, multiply and right-multiply
by an integer, floor-divide and true-divide by an integer, modulo) returns a
Delta instance, never the bare native timedelta; floor-divide and
true-divide of two Deltas return a plain int and float respectively; and
divmod of two Deltas returns a pair of a plain int quotient and a Delta
remainder. -/
theorem c5_amended_arithmetic_closure :
    (∀ a b r, Delta.add a b = .ok r → r.isDelta = true) ∧
    (∀ a b r, Delta.radd a b = .ok r → r.isDelta = true) ∧
    (∀ a b r, Delta.sub a b = .ok r → r.isDelta = true) ∧
    (∀ a k r, Delta.mulInt a k = .ok r → r.isDelta = true) ∧
    (∀ a k r, Delta.rmulInt a k = .ok r → r.isDelta = true) ∧
    (∀ a k r, Delta.floordivInt a k = .ok r → r.isDelta = true) ∧
    (∀ a k r, Delta.truedivInt a k = .ok r → r.isDelta = true) ∧
    (∀ a b r, Delta.modD a b = .ok r → r.isDelta = true) ∧
    (∀ a b r, Delta.floordivD a b = .ok r → r.isInt = true) ∧
    (∀ a b r, Delta.truedivD a b = .ok r → r.isFloat = true) ∧
    (∀ a b r, Delta.divmodD a b = .ok r → r.isIntDeltaPair = true) := by
  refine ⟨?_, ?_, ?_, ?_, ?_, ?_, ?_, ?_, ?_, ?_, ?_⟩
  · intro a b r h
    unfold Delta.add at h
    obtain ⟨t, -, h2⟩ := except_bind_ok.mp h
    exact asdeltaVal_pyTd_ok h2
  · intro a b r h
    unfold Delta.radd at h
    obtain ⟨t, -, h2⟩ := except_bind_ok.mp h
    exact asdeltaVal_pyTd_ok h2
  · intro a b r h
    unfold Delta.sub at h
    obtain ⟨t, -, h2⟩ := except_bind_ok.mp h
    exact asdeltaVal_pyTd_ok h2
  · intro a k r h
    unfold Delta.mulInt at h
    obtain ⟨t, -, h2⟩ := except_bind_ok.mp h
    exact asdeltaVal_pyTd_ok h2
  · intro a k r h
    unfold Delta.rmulInt at h
    obtain ⟨t, -, h2⟩ := except_bind_ok.mp h
    exact asdeltaVal_pyTd_ok h2
  · intro a k r h
    unfold Delta.floordivInt at h
    split at h
    · cases h
    · obtain ⟨t, -, h2⟩ := except_bind_ok.mp h
      exact asdeltaVal_pyTd_ok h2
  · intro a k r h
    unfold Delta.truedivInt at h
    split at h
    · cases h
    · obtain ⟨t, -, h2⟩ := except_bind_ok.mp h
      exact asdeltaVal_pyTd_ok h2
  · intro a b r h
    unfold Delta.modD at h
    split at h
    · cases h
    · obtain ⟨t, -, h2⟩ := except_bind_ok.mp h
      exact asdeltaVal_pyTd_ok h2
  · intro a b r h
    unfold Delta.floordivD at h
    split at h
    · cases h
    · unfold asdeltaVal at h
      cases h
      rfl
  · intro a b r h
    unfold Delta.truedivD at h
    split at h
    · cases h
    · unfold asdeltaVal at h
      cases h
      rfl
  · intro a b r h
    unfold Delta.divmodD at h
    split at h
    · cases h
    · obtain ⟨t, -, h2⟩ := except_bind_ok.mp h
      exact asdeltaVal_pair_ok h2

/-- C5 amended witness: every part instantiated at the Deltas of two days
and one day and the integer 2, with all success hypotheses discharged by
computation. -/
theorem c5_amended_witness :
    (PyNum.pyDelta ⟨⟨259200000000⟩⟩).isDelta = true ∧
    (PyNum.pyDelta ⟨⟨86400000000⟩⟩).isDelta = true ∧
    (PyNum.pyDelta ⟨⟨345600000000⟩⟩).isDelta = true ∧
    (PyNum.pyInt 2).isInt = true ∧
    (PyNum.pyFloat ⟨4503599627370496, -51⟩).isFloat = true ∧
    (PyNum.pyPair (.pyInt 2) (.pyDelta ⟨⟨0⟩⟩)).isIntDeltaPair = true := by
  refine ⟨?_, ?_, ?_, ?_, ?_, ?_⟩
  · exact c5_amended_arithmetic_closure.1 ⟨⟨172800000000⟩⟩ ⟨⟨86400000000⟩⟩
      (.pyDelta ⟨⟨259200000000⟩⟩) (by decide)
  · exact c5_amended_arithmetic_closure.2.2.1 ⟨⟨172800000000⟩⟩ ⟨⟨86400000000⟩⟩
      (.pyDelta ⟨⟨86400000000⟩⟩) (by decide)
  · exact c5_amended_arithmetic_closure.2.2.2.1 ⟨⟨172800000000⟩⟩ 2
      (.pyDelta ⟨⟨345600000000⟩⟩) (by decide)
  · exact c5_amended_arithmetic_closure.2.2.2.2.2.2.2.2.1 ⟨⟨172800000000⟩⟩
      ⟨⟨86400000000⟩⟩ (.pyInt 2) (by decide)
  · exact c5_amended_arithmetic_closure.2.2.2.2.2.2.2.2.2.1 ⟨⟨172800000000⟩⟩
      ⟨⟨86400000000⟩⟩ (.pyFloat ⟨4503599627370496, -51⟩) (by decide)
  · exact c5_amended_arithmetic_closure.2.2.2.2.2.2.2.2.2.2 ⟨⟨172800000000⟩⟩
      ⟨⟨86400000000⟩⟩ (.pyPair (.pyInt 2) (.pyDelta ⟨⟨0⟩⟩)) (by decide)

/-! ## Claim C4 -/

/-- C4 counterexample: Delta.fromtimedelta applied to the native timedelta
of 200000000 days and 1 microsecond returns a Delta whose total elapsed
time lost that microsecond through the float total-seconds conversion —
refuting the claim that the total elapsed time is always identical. -/
theorem c4_counterexample :
    Delta.fromtimedelta ⟨17280000000000000001⟩ = .ok ⟨⟨17280000000000000000⟩⟩ ∧
    (17280000000000000000 : ℤ) ≠ 17280000000000000001 := by
  constructor
  · decide
  · decide

/-- C4 (amended): for every native timedelta whose total-seconds value is
exactly representable in binary64, fromtimedelta constructs a Delta with
identical total elapsed time; otherwise the result is rounded (or can
overflow), as the counterexample shows. -/
theorem c4_amended_fromtimedelta_exact (t : Timedelta)
    (hb : tdMinUs ≤ t.us ∧ t.us ≤ tdMaxUs)
    (hexact : (t.total_seconds).toRat = (t.us : ℚ) / 1000000) :
    Delta.fromtimedelta t = .ok ⟨t⟩ := by
  unfold Delta.fromtimedelta
  suffices h : tdFromFloatSeconds t.total_seconds = .ok t by
    rw [h]; rfl
  set f := t.total_seconds with hf
  rw [Float64.toRat] at hexact
  unfold tdFromFloatSeconds
  by_cases he : (0:ℤ) ≤ f.e
  · rw [if_pos he]
    have hn : ((f.e.toNat : ℕ) : ℤ) = f.e := Int.toNat_of_nonneg he
    have h1 : f.m * 2 ^ f.e.toNat * 1000000 = t.us := by
      have h2 : ((f.m * 2 ^ f.e.toNat * 1000000 : ℤ) : ℚ) = ((t.us : ℤ) : ℚ) := by
        push_cast
        rw [← zpow_natCast (2:ℚ) f.e.toNat, hn]
        field_simp at hexact
        linear_combination hexact
      exact_mod_cast h2
    unfold usPerSecond
    rw [h1]
    unfold tdCheck
    rw [if_pos hb]
  · rw [if_neg he]
    have hq2pos : 0 < 2 ^ (-f.e).toNat := pow_pos (by norm_num) (-f.e).toNat
    have hq2posz : (0:ℤ) < ((2 ^ (-f.e).toNat : ℕ) : ℤ) := by exact_mod_cast hq2pos
    have hn : (((-f.e).toNat : ℕ) : ℤ) = -f.e := Int.toNat_of_nonneg (by omega)
    have hzp : (2:ℚ) ^ f.e = (((2 ^ (-f.e).toNat : ℕ) : ℕ) : ℚ)⁻¹ := by
      push_cast
      rw [← zpow_natCast (2:ℚ) (-f.e).toNat, hn, ← zpow_neg, neg_neg]
    have key : f.m * 1000000 = t.us * ((2 ^ (-f.e).toNat : ℕ) : ℤ) := by
      rw [hzp] at hexact
      have hq2ne : (((2 ^ (-f.e).toNat : ℕ) : ℕ) : ℚ) ≠ 0 := by positivity
      field_simp at hexact
      exact_mod_cast hexact
    have hdmz : (f.m.natAbs : ℤ)
        = ((2 ^ (-f.e).toNat : ℕ) : ℤ) * ((f.m.natAbs / 2 ^ (-f.e).toNat : ℕ) : ℤ)
          + ((f.m.natAbs % 2 ^ (-f.e).toNat : ℕ) : ℤ) := by
      exact_mod_cast (Nat.div_add_mod f.m.natAbs (2 ^ (-f.e).toNat)).symm
    have hmodlt : ((f.m.natAbs % 2 ^ (-f.e).toNat : ℕ) : ℤ)
        < ((2 ^ (-f.e).toNat : ℕ) : ℤ) := by
      exact_mod_cast Nat.mod_lt _ hq2pos
    have hmodnn : (0:ℤ) ≤ ((f.m.natAbs % 2 ^ (-f.e).toNat : ℕ) : ℤ) := by positivity
    have hrbound : -((2:ℤ) ^ (-f.e).toNat)
          < f.m - floatIpart f * 2 ^ (-f.e).toNat ∧
        f.m - floatIpart f * 2 ^ (-f.e).toNat < (2:ℤ) ^ (-f.e).toNat := by
      unfold floatIpart
      rcases lt_or_ge f.m 0 with hm | hm
      · rw [if_pos hm]
        have habs : (f.m.natAbs : ℤ) = -f.m := by omega
        push_cast
        push_cast at hdmz habs hmodlt hmodnn
        constructor <;> nlinarith [hdmz, habs, hmodlt, hmodnn]
      · rw [if_neg (by omega)]
        have habs : (f.m.natAbs : ℤ) = f.m := by omega
        push_cast
        push_cast at hdmz habs hmodlt hmodnn
        constructor <;> nlinarith [hdmz, habs, hmodlt, hmodnn]
    set ip := floatIpart f with hip
    set r := f.m - ip * 2 ^ (-f.e).toNat with hr
    set v : ℤ := t.us - ip * 1000000 with hv
    have hveq : r * 1000000 = v * ((2 ^ (-f.e).toNat : ℕ) : ℤ) := by
      rw [hr, hv]
      push_cast
      push_cast at key
      linear_combination key
    have hvabs : v.natAbs < 1000000 := by
      have h0 := congrArg Int.natAbs hveq
      rw [Int.natAbs_mul, Int.natAbs_mul, Int.natAbs_ofNat] at h0
      have h0n : r.natAbs * 1000000 = v.natAbs * 2 ^ (-f.e).toNat := by
        simpa using h0
      have h2 : r.natAbs < 2 ^ (-f.e).toNat := by
        have h2z : (r.natAbs : ℤ) < (2:ℤ) ^ (-f.e).toNat := by
          rw [hr]
          omega
        exact_mod_cast h2z
      have h3 : r.natAbs * 1000000 < 2 ^ (-f.e).toNat * 1000000 :=
        Nat.mul_lt_mul_of_lt_of_le h2 le_rfl (by norm_num)
      have h4 : v.natAbs * 2 ^ (-f.e).toNat < 1000000 * 2 ^ (-f.e).toNat := by
        rw [← h0n]
        calc r.natAbs * 1000000 < 2 ^ (-f.e).toNat * 1000000 := h3
          _ = 1000000 * 2 ^ (-f.e).toNat := by ring
      exact Nat.lt_of_mul_lt_mul_right h4
    have hv53 : v.natAbs < 2 ^ 53 := by
      calc v.natAbs < 1000000 := hvabs
        _ < 2 ^ 53 := by norm_num
    have hfr : r * 1000000 = v * ((2 ^ (-f.e).toNat : ℕ) : ℤ) := hveq
    rw [show (f.m - ip * 2 ^ (-f.e).toNat) * 1000000
        = v * ((2 ^ (-f.e).toNat : ℕ) : ℤ) by rw [← hr]; exact hfr]
    rw [floatOfRatParts_int_exact hq2pos hv53]
    have hsum : ip * usPerSecond + v = t.us := by
      unfold usPerSecond
      rw [hv]
      ring
    rw [hsum]
    unfold tdCheck
    rw [if_pos hb]

/-- C4 amended witness: the theorem applied to the one-second timedelta,
whose total-seconds value 1.0 is exact. -/
theorem c4_amended_witness :
    Delta.fromtimedelta ⟨1000000⟩ = .ok ⟨⟨1000000⟩⟩ := by
  have hts : Timedelta.total_seconds ⟨1000000⟩ = ⟨4503599627370496, -52⟩ := by
    decide
  refine c4_amended_fromtimedelta_exact ⟨1000000⟩ (by decide) ?_
  rw [hts, Float64.toRat]
  norm_num

/-! ## Calendar lemmas: _ord2ymd and _ymd2ord are mutually inverse -/

/-- The days-before-year count at year 400a + 100b + 4c + e + 1, written
through the block sizes of the 400/100/4/1-year cycles. -/
theorem daysBeforeYear_decomp (a b c e : ℕ) (hb : b ≤ 3) (hc : c ≤ 24) (he : e ≤ 3) :
    daysBeforeYear (400 * a + 100 * b + 4 * c + e + 1)
      = 146097 * a + 36524 * b + 1461 * c + 365 * e := by
  unfold daysBeforeYear
  omega

/-- The leap-year predicate at year 400a + 100b + 4c + e + 1. -/
theorem isLeap_decomp (a b c e : ℕ) (hb : b ≤ 3) (hc : c ≤ 24) (he : e ≤ 3) :
    (isLeap (400 * a + 100 * b + 4 * c + e + 1) = true)
      ↔ (e = 3 ∧ (c ≠ 24 ∨ b = 3)) := by
  unfold isLeap
  simp only [Bool.and_eq_true, beq_iff_eq, Bool.or_eq_true, bne_iff_ne, ne_eq]
  omega

/-- Month lengths through the table plus the February leap adjustment. -/
theorem daysInMonth_eq (y m : ℕ) :
    daysInMonth y m
      = daysInMonthTable m + (if m = 2 ∧ isLeap y = true then 1 else 0) := by
  unfold daysInMonth
  by_cases h : m = 2 ∧ isLeap y = true
  · rw [if_pos h, if_pos h, h.1]
    rfl
  · rw [if_neg h, if_neg h]
    omega

/-- Every month length is at most 31. -/
theorem daysInMonthTable_le (m : ℕ) : daysInMonthTable m ≤ 31 := by
  unfold daysInMonthTable
  split <;> omega

set_option maxRecDepth 100000 in
/-- Within one year, the month/day step of _ord2ymd maps each day-of-year
in [0, 365) to a valid month and day whose day-of-year computation gives it
back: checked for all 730 cases. -/
theorem ord2ymdDayMonth_spec : ∀ n0 < 365, ∀ leap : Bool,
    1 ≤ (ord2ymdDayMonth n0 leap).1 ∧ (ord2ymdDayMonth n0 leap).1 ≤ 12 ∧
    1 ≤ (ord2ymdDayMonth n0 leap).2 ∧
    (ord2ymdDayMonth n0 leap).2 ≤ daysInMonthTable (ord2ymdDayMonth n0 leap).1
      + (if (ord2ymdDayMonth n0 leap).1 = 2 ∧ leap = true then 1 else 0) ∧
    daysBeforeMonthTable (ord2ymdDayMonth n0 leap).1
      + (if 2 < (ord2ymdDayMonth n0 leap).1 ∧ leap = true then 1 else 0)
      + (ord2ymdDayMonth n0 leap).2 = n0 + 1 := by
  decide

set_option maxRecDepth 100000 in
/-- The month/day step of _ord2ymd is a left inverse of the day-of-year
computation on every valid month/day: checked for all bounded cases. -/
theorem ord2ymdDayMonth_inv : ∀ m < 13, ∀ d < 32, ∀ leap : Bool,
    1 ≤ m → 1 ≤ d →
    d ≤ daysInMonthTable m + (if m = 2 ∧ leap = true then 1 else 0) →
    ord2ymdDayMonth
      (daysBeforeMonthTable m + (if 2 < m ∧ leap = true then 1 else 0) + d - 1)
      leap = (m, d) := by
  decide

set_option maxRecDepth 100000 in
/-- The day-of-year of a valid month/day is at most 365, plus one in leap
years. -/
theorem dayOfYear_le : ∀ m < 13, ∀ d < 32, ∀ leap : Bool,
    1 ≤ m → 1 ≤ d →
    d ≤ daysInMonthTable m + (if m = 2 ∧ leap = true then 1 else 0) →
    daysBeforeMonthTable m + (if 2 < m ∧ leap = true then 1 else 0) + d
      ≤ 365 + (if leap = true then 1 else 0) := by
  decide

set_option maxRecDepth 100000 in
/-- Day-of-year 366 is exactly December 31st of a leap year. -/
theorem dayOfYear_eq_366 : ∀ m < 13, ∀ d < 32, ∀ leap : Bool,
    1 ≤ m → 1 ≤ d →
    d ≤ daysInMonthTable m + (if m = 2 ∧ leap = true then 1 else 0) →
    daysBeforeMonthTable m + (if 2 < m ∧ leap = true then 1 else 0) + d = 366 →
    leap = true ∧ m = 12 ∧ d = 31 := by
  decide

/-- _ord2ymd on an ordinal written through the cycle decomposition, in the
ordinary case (day-of-year below 365): the divisor chain recovers each
block count. -/
theorem ord2ymd_of_decomp (a b c e j : ℕ) (hb : b ≤ 3) (hc : c ≤ 24) (he : e ≤ 3)
    (hj : j ≤ 364) :
    ord2ymd (146097 * a + 36524 * b + 1461 * c + 365 * e + j + 1)
      = (400 * a + 100 * b + 4 * c + e + 1,
         ord2ymdDayMonth j ((e == 3) && ((c != 24) || (b == 3)))) := by
  simp only [ord2ymd]
  have h0 : 146097 * a + 36524 * b + 1461 * c + 365 * e + j + 1 - 1
      = 146097 * a + 36524 * b + 1461 * c + 365 * e + j := by omega
  rw [h0]
  have h1 : (146097 * a + 36524 * b + 1461 * c + 365 * e + j) / 146097 = a := by omega
  have h2 : (146097 * a + 36524 * b + 1461 * c + 365 * e + j) % 146097
      = 36524 * b + 1461 * c + 365 * e + j := by omega
  rw [h1, h2]
  have h3 : (36524 * b + 1461 * c + 365 * e + j) / 36524 = b := by omega
  have h4 : (36524 * b + 1461 * c + 365 * e + j) % 36524
      = 1461 * c + 365 * e + j := by omega
  rw [h3, h4]
  have h5 : (1461 * c + 365 * e + j) / 1461 = c := by omega
  have h6 : (1461 * c + 365 * e + j) % 1461 = 365 * e + j := by omega
  rw [h5, h6]
  have h7 : (365 * e + j) / 365 = e := by omega
  have h8 : (365 * e + j) % 365 = j := by omega
  rw [h7, h8]
  rw [if_neg (by omega)]
  simp only [Prod.mk.injEq, and_true, true_and]
  omega

/-- _ord2ymd at day-of-year 366 of a leap year inside a century (the
quotient chain ends with n1 = 4). -/
theorem ord2ymd_of_decomp_leapend (a b c : ℕ) (hb : b ≤ 3) (hc : c ≤ 23) :
    ord2ymd (146097 * a + 36524 * b + 1461 * c + 1460 + 1)
      = (400 * a + 100 * b + 4 * c + 4, 12, 31) := by
  simp only [ord2ymd]
  have h0 : 146097 * a + 36524 * b + 1461 * c + 1460 + 1 - 1
      = 146097 * a + 36524 * b + 1461 * c + 1460 := by omega
  rw [h0]
  have h1 : (146097 * a + 36524 * b + 1461 * c + 1460) / 146097 = a := by omega
  have h2 : (146097 * a + 36524 * b + 1461 * c + 1460) % 146097
      = 36524 * b + 1461 * c + 1460 := by omega
  rw [h1, h2]
  have h3 : (36524 * b + 1461 * c + 1460) / 36524 = b := by omega
  have h4 : (36524 * b + 1461 * c + 1460) % 36524 = 1461 * c + 1460 := by omega
  rw [h3, h4]
  have h5 : (1461 * c + 1460) / 1461 = c := by omega
  have h6 : (1461 * c + 1460) % 1461 = 1460 := by omega
  rw [h5, h6]
  rw [if_pos (by norm_num)]
  simp only [Prod.mk.injEq, and_true, true_and]
  omega

/-- _ord2ymd at day-of-year 366 of a year divisible by 400 (the quotient
chain ends with n100 = 4). -/
theorem ord2ymd_of_decomp_400end (a : ℕ) :
    ord2ymd (146097 * a + 146096 + 1) = (400 * a + 400, 12, 31) := by
  simp only [ord2ymd]
  have h0 : 146097 * a + 146096 + 1 - 1 = 146097 * a + 146096 := by omega
  rw [h0]
  have h1 : (146097 * a + 146096) / 146097 = a := by omega
  have h2 : (146097 * a + 146096) % 146097 = 146096 := by omega
  rw [h1, h2]
  norm_num
  omega

/-- _ord2ymd inverts _ymd2ord on every valid date. -/
theorem ord2ymd_ymd2ord {y m d : ℕ} (h : validYMD y m d) :
    ord2ymd (ymd2ord y m d) = (y, m, d) := by
  obtain ⟨hy1, hy2, hm1, hm2, hd1, hd2⟩ := h
  have hdim31 := daysInMonthTable_le m
  rw [daysInMonth_eq] at hd2
  obtain ⟨a, b, c, e, hdec, hb, hc, he⟩ :
      ∃ a b c e, y = 400 * a + 100 * b + 4 * c + e + 1 ∧ b ≤ 3 ∧ c ≤ 24 ∧ e ≤ 3 :=
    ⟨(y - 1) / 400, (y - 1) % 400 / 100, (y - 1) % 400 % 100 / 4,
      (y - 1) % 400 % 100 % 4, by omega, by omega, by omega, by omega⟩
  have hleap := isLeap_decomp a b c e hb hc he
  rw [← hdec] at hleap
  have hdby : daysBeforeYear y = 146097 * a + 36524 * b + 1461 * c + 365 * e := by
    rw [hdec]; exact daysBeforeYear_decomp a b c e hb hc he
  have hd32 : d < 32 := by
    by_cases h2 : m = 2 ∧ isLeap y = true
    · have h28 : daysInMonthTable m = 28 := by rw [h2.1]; rfl
      rw [if_pos h2] at hd2
      omega
    · rw [if_neg h2] at hd2
      omega
  have hjle := dayOfYear_le m (by omega) d hd32 (isLeap y) hm1 hd1 hd2
  have hord : ymd2ord y m d
      = 146097 * a + 36524 * b + 1461 * c + 365 * e
        + (daysBeforeMonthTable m + (if 2 < m ∧ isLeap y = true then 1 else 0) + d - 1)
        + 1 := by
    unfold ymd2ord daysBeforeMonth
    rw [hdby]
    omega
  by_cases hj365 :
      daysBeforeMonthTable m + (if 2 < m ∧ isLeap y = true then 1 else 0) + d = 366
  · obtain ⟨hlp, hm12, hd31⟩ :=
      dayOfYear_eq_366 m (by omega) d hd32 (isLeap y) hm1 hd1 hd2 hj365
    have hjv : daysBeforeMonthTable m
        + (if 2 < m ∧ isLeap y = true then 1 else 0) + d - 1 = 365 := by omega
    rw [hord, hjv]
    obtain ⟨he3, hcb⟩ := hleap.mp hlp
    by_cases hc24 : c = 24
    · have hb3 : b = 3 := by
        rcases hcb with h | h
        · exact absurd hc24 h
        · exact h
      have harith : 146097 * a + 36524 * b + 1461 * c + 365 * e + 365 + 1
          = 146097 * a + 146096 + 1 := by
        omega
      rw [harith, ord2ymd_of_decomp_400end]
      simp only [Prod.mk.injEq, and_true, true_and]
      omega
    · have harith : 146097 * a + 36524 * b + 1461 * c + 365 * e + 365 + 1
          = 146097 * a + 36524 * b + 1461 * c + 1460 + 1 := by
        omega
      rw [harith, ord2ymd_of_decomp_leapend a b c hb (by omega)]
      simp only [Prod.mk.injEq, and_true, true_and]
      omega
  · have hif1 : (if 2 < m ∧ isLeap y = true then 1 else 0) ≤ 1 := by
      split <;> omega
    have hif2 : (if isLeap y = true then 1 else 0) ≤ 1 := by
      split <;> omega
    have hj364 : daysBeforeMonthTable m
        + (if 2 < m ∧ isLeap y = true then 1 else 0) + d - 1 ≤ 364 := by omega
    rw [hord, ord2ymd_of_decomp a b c e _ hb hc he hj364]
    have hflag : ((e == 3) && ((c != 24) || (b == 3))) = isLeap y := by
      refine Bool.eq_iff_iff.mpr ?_
      rw [hleap]
      simp only [Bool.and_eq_true, beq_iff_eq, Bool.or_eq_true, bne_iff_ne, ne_eq]
    rw [hflag,
      ord2ymdDayMonth_inv m (by omega) d hd32 (isLeap y) hm1 hd1 hd2]
    simp only [Prod.mk.injEq, and_true, true_and]
    omega

/-- _ymd2ord inverts _ord2ymd on every ordinal in [1, _MAXORDINAL], and the
recovered fields are a valid date. -/
theorem ymd2ord_ord2ymd (n : ℕ) (h1 : 1 ≤ n) (h2 : n ≤ maxOrdinal) :
    validYMD (ord2ymd n).1 (ord2ymd n).2.1 (ord2ymd n).2.2 ∧
    ymd2ord (ord2ymd n).1 (ord2ymd n).2.1 (ord2ymd n).2.2 = n := by
  replace h2 : n ≤ 3652059 := h2
  obtain ⟨a, b, c, e, j, hn, hcases⟩ :
      ∃ a b c e j, n = 146097 * a + 36524 * b + 1461 * c + 365 * e + j + 1 ∧
        (b = 4 ∧ c = 0 ∧ e = 0 ∧ j = 0 ∨
         b ≤ 3 ∧ c ≤ 23 ∧ e = 4 ∧ j = 0 ∨
         b ≤ 3 ∧ c ≤ 24 ∧ e ≤ 3 ∧ j ≤ 364) := by
    refine ⟨(n - 1) / 146097, (n - 1) % 146097 / 36524,
      (n - 1) % 146097 % 36524 / 1461, (n - 1) % 146097 % 36524 % 1461 / 365,
      (n - 1) % 146097 % 36524 % 1461 % 365, by omega, by omega⟩
  rcases hcases with ⟨hb4, hc0, he0, hj0⟩ | ⟨hb, hc, he4, hj0⟩ | ⟨hb, hc, he, hj⟩
  · subst hb4 hc0 he0 hj0
    rw [show n = 146097 * a + 146096 + 1 from by omega, ord2ymd_of_decomp_400end]
    refine ⟨⟨?_, ?_, ?_, ?_, ?_, ?_⟩, ?_⟩
    · show 1 ≤ 400 * a + 400
      omega
    · show 400 * a + 400 ≤ 9999
      omega
    · show 1 ≤ 12
      omega
    · show 12 ≤ 12
      omega
    · show 1 ≤ 31
      omega
    · show (31 : ℕ) ≤ daysInMonth (400 * a + 400) 12
      unfold daysInMonth
      rw [if_neg (by simp)]
      decide
    · show ymd2ord (400 * a + 400) 12 31 = 146097 * a + 146096 + 1
      unfold ymd2ord daysBeforeMonth
      rw [show 400 * a + 400 = 400 * a + 100 * 3 + 4 * 24 + 3 + 1 from by omega,
        daysBeforeYear_decomp a 3 24 3 (by omega) (by omega) (by omega),
        if_pos ⟨by omega,
          (isLeap_decomp a 3 24 3 (by omega) (by omega) (by omega)).mpr (by omega)⟩]
      have ht : daysBeforeMonthTable 12 = 334 := rfl
      omega
  · subst he4 hj0
    rw [show n = 146097 * a + 36524 * b + 1461 * c + 1460 + 1 from by omega,
      ord2ymd_of_decomp_leapend a b c hb hc]
    refine ⟨⟨?_, ?_, ?_, ?_, ?_, ?_⟩, ?_⟩
    · show 1 ≤ 400 * a + 100 * b + 4 * c + 4
      omega
    · show 400 * a + 100 * b + 4 * c + 4 ≤ 9999
      omega
    · show 1 ≤ 12
      omega
    · show 12 ≤ 12
      omega
    · show 1 ≤ 31
      omega
    · show (31 : ℕ) ≤ daysInMonth (400 * a + 100 * b + 4 * c + 4) 12
      unfold daysInMonth
      rw [if_neg (by simp)]
      decide
    · show ymd2ord (400 * a + 100 * b + 4 * c + 4) 12 31
        = 146097 * a + 36524 * b + 1461 * c + 1460 + 1
      unfold ymd2ord daysBeforeMonth
      rw [show 400 * a + 100 * b + 4 * c + 4 = 400 * a + 100 * b + 4 * c + 3 + 1
          from by omega,
        daysBeforeYear_decomp a b c 3 hb (by omega) (by omega),
        if_pos ⟨by omega,
          (isLeap_decomp a b c 3 hb (by omega) (by omega)).mpr (by omega)⟩]
      have ht : daysBeforeMonthTable 12 = 334 := rfl
      omega
  · have hflageq : ((e == 3) && ((c != 24) || (b == 3)))
        = isLeap (400 * a + 100 * b + 4 * c + e + 1) := by
      refine Bool.eq_iff_iff.mpr ?_
      rw [isLeap_decomp a b c e hb hc he]
      simp only [Bool.and_eq_true, beq_iff_eq, Bool.or_eq_true, bne_iff_ne, ne_eq]
    rw [hn, ord2ymd_of_decomp a b c e j hb hc he hj, hflageq]
    obtain ⟨hm1, hm12, hd1, hdle, hsum⟩ :=
      ord2ymdDayMonth_spec j (by omega) (isLeap (400 * a + 100 * b + 4 * c + e + 1))
    refine ⟨⟨?_, ?_, hm1, hm12, hd1, ?_⟩, ?_⟩
    · show 1 ≤ 400 * a + 100 * b + 4 * c + e + 1
      omega
    · show 400 * a + 100 * b + 4 * c + e + 1 ≤ 9999
      omega
    · show (ord2ymdDayMonth j (isLeap (400 * a + 100 * b + 4 * c + e + 1))).2
        ≤ daysInMonth (400 * a + 100 * b + 4 * c + e + 1)
            (ord2ymdDayMonth j (isLeap (400 * a + 100 * b + 4 * c + e + 1))).1
      rw [daysInMonth_eq]
      exact hdle
    · show ymd2ord (400 * a + 100 * b + 4 * c + e + 1)
          (ord2ymdDayMonth j (isLeap (400 * a + 100 * b + 4 * c + e + 1))).1
          (ord2ymdDayMonth j (isLeap (400 * a + 100 * b + 4 * c + e + 1))).2
        = 146097 * a + 36524 * b + 1461 * c + 365 * e + j + 1
      unfold ymd2ord daysBeforeMonth
      rw [daysBeforeYear_decomp a b c e hb hc he]
      omega

/-- The ordinal of any valid date lies in [1, _MAXORDINAL]. -/
theorem ymd2ord_le (y m d : ℕ) (h : validYMD y m d) :
    1 ≤ ymd2ord y m d ∧ ymd2ord y m d ≤ maxOrdinal := by
  obtain ⟨hy1, hy2, hm1, hm2, hd1, hd2⟩ := h
  have hdim : daysInMonth y m ≤ 31 := by
    unfold daysInMonth
    split
    · omega
    · exact daysInMonthTable_le m
  have hdbmT : daysBeforeMonthTable m ≤ 334 := by
    unfold daysBeforeMonthTable
    split <;> omega
  unfold ymd2ord daysBeforeMonth daysBeforeYear maxOrdinal
  by_cases hL : 2 < m ∧ isLeap y = true
  · have hmod : y % 4 = 0 := by
      have h4 := hL.2
      unfold isLeap at h4
      simp only [Bool.and_eq_true, beq_iff_eq, Bool.or_eq_true, bne_iff_ne,
        ne_eq] at h4
      exact h4.1
    rw [if_pos hL]
    omega
  · rw [if_neg hL]
    omega

/-- A valid naive datetime's microsecond count stays below the count of
the first instant past 9999-12-31T23:59:59.999999. -/
theorem toUs_lt (n : NaiveDT) (h : n.valid) :
    n.toUs < 3652059 * 86400000000 := by
  obtain ⟨y, mo, dy, hh, mi, ss, us⟩ := n
  simp only [NaiveDT.valid] at h
  obtain ⟨hy1, hy2, hm1, hm2, hd1, hd2, hhh, hmi, hss, hus⟩ := h
  have hord := ymd2ord_le y mo dy ⟨hy1, hy2, hm1, hm2, hd1, hd2⟩
  rw [maxOrdinal] at hord
  simp only [NaiveDT.toUs]
  omega

/-- The field-to-instant-to-field round trip is the identity on valid
naive datetimes. -/
theorem usToNaive_toUs (n : NaiveDT) (h : n.valid) : usToNaive n.toUs = n := by
  obtain ⟨y, mo, dy, hh, mi, ss, us⟩ := n
  simp only [NaiveDT.valid] at h
  obtain ⟨hy1, hy2, hm1, hm2, hd1, hd2, hhh, hmi, hss, hus⟩ := h
  have hv : validYMD y mo dy := ⟨hy1, hy2, hm1, hm2, hd1, hd2⟩
  have hord := ymd2ord_le y mo dy hv
  have hA := ord2ymd_ymd2ord hv
  simp only [usToNaive, NaiveDT.toUs]
  have h1 : ((ymd2ord y mo dy - 1) * 86400000000
      + ((hh * 60 + mi) * 60 + ss) * 1000000 + us) / 86400000000 + 1
      = ymd2ord y mo dy := by omega
  rw [h1, hA]
  simp only [NaiveDT.mk.injEq, true_and]
  refine ⟨?_, ?_, ?_, ?_⟩ <;> omega

/-- The instant-to-field-to-instant round trip is the identity on counts
inside the supported range, and the recovered fields are valid. -/
theorem usToNaive_spec (t : ℕ) (h : t < 3652059 * 86400000000) :
    (usToNaive t).valid ∧ (usToNaive t).toUs = t := by
  obtain ⟨⟨h1, h2, h3, h4, h5, h6⟩, hB2⟩ :=
    ymd2ord_ord2ymd (t / 86400000000 + 1) (by omega)
      (by show t / 86400000000 + 1 ≤ 3652059; omega)
  simp only [usToNaive, NaiveDT.valid, NaiveDT.toUs]
  refine ⟨⟨h1, h2, h3, h4, h5, h6, by omega, by omega, by omega, by omega⟩, ?_⟩
  rw [hB2]
  omega

/-! ## Claim C9 -/

/-- C9: DateTime(1970, 1, 1).timestamp() is the float 0.0, and in general
timestamp() returns the stored UTC instant's distance from the Unix epoch
as the binary64 count of seconds (the microsecond difference correctly
rounded through division by 10^6), computed by subtracting _EPOCH and
converting through total_seconds. -/
theorem c9_timestamp_epoch_seconds :
    DateTime.timestamp epochDT = ⟨0, 0⟩ ∧
    ∀ d : DateTime, DateTime.timestamp d
      = floatOfRatParts (d.datetime.instant - epochDT.datetime.instant) 1000000 := by
  refine ⟨by decide, fun d => ?_⟩
  show Timedelta.total_seconds ⟨d.datetime.instant - epochDT.datetime.instant⟩ = _
  rw [total_seconds_eq]

/-! ## Claim C2 -/

/-- Whatever the zone argument, an ok result of the primary constructor
carries pytz.UTC: the last step of __init__ is astimezone(pytz.UTC). -/
theorem init_tz {y mo dy h mi s us : ℕ} {tz : Option TzArg} {dt : DateTime}
    (h0 : DateTime.init y mo dy h mi s us tz = .ok dt) :
    dt.datetime.tz = some tzUTC := by
  simp only [DateTime.init] at h0
  by_cases hv : (NaiveDT.mk y mo dy h mi s us).valid
  · rw [if_pos hv] at h0
    have hcont : ∀ dtLoc : Datetime,
        Except.map DateTime.mk (awareAstimezone dtLoc (.pytzZone utcZone))
          = .ok dt →
        dt.datetime.tz = some tzUTC := by
      intro dtLoc hf
      simp only [awareAstimezone] at hf
      obtain ⟨d1, hd1, hd1e⟩ := except_map_ok.mp hf
      obtain ⟨nv, hnv, hnve⟩ := except_map_ok.mp hd1
      subst hd1e
      subst hnve
      rfl
    rcases tz with _ | z_or_f
    · obtain ⟨dtLoc, hM, hf⟩ := except_bind_ok.mp h0
      exact hcont dtLoc hf
    · rcases z_or_f with z | off
      · obtain ⟨dtLoc, hM, hf⟩ := except_bind_ok.mp h0
        exact hcont dtLoc hf
      · obtain ⟨dtLoc, hM, hf⟩ := except_bind_ok.mp h0
        exact hcont dtLoc hf
  · rw [if_neg hv] at h0
    exact Except.noConfusion h0

/-- Every ok result of fromdatetime (the funnel of all secondary
constructors) carries pytz.UTC. -/
theorem fromdatetime_tz {d : Datetime} {dt : DateTime}
    (h : DateTime.fromdatetime d = .ok dt) : dt.datetime.tz = some tzUTC := by
  unfold DateTime.fromdatetime at h
  exact init_tz h

/-- C2: every DateTime produced by a constructor or transforming operation
(primary constructor with or without a zone, now, parse, fromdatetime,
fromtimestamp, fromordinal, combine, copy, offset, replace, addition,
subtraction yielding a DateTime) stores its instant with the UTC zone
attached, and the tzinfo accessor reports UTC. -/
theorem c2_utc_invariant :
    (∀ y mo dy h mi s us tz dt, DateTime.init y mo dy h mi s us tz = .ok dt →
      dt.datetime.tz = some tzUTC ∧ DateTime.tzinfo dt = some tzUTC) ∧
    (∀ nv dt, DateTime.now nv = .ok dt → DateTime.tzinfo dt = some tzUTC) ∧
    (∀ p dt, DateTime.parse p = .ok dt → DateTime.tzinfo dt = some tzUTC) ∧
    (∀ d dt, DateTime.fromdatetime d = .ok dt → DateTime.tzinfo dt = some tzUTC) ∧
    (∀ t dt, DateTime.fromtimestamp t = .ok dt → DateTime.tzinfo dt = some tzUTC) ∧
    (∀ n dt, DateTime.fromordinal n = .ok dt → DateTime.tzinfo dt = some tzUTC) ∧
    (∀ dy2 dm dd th tm ts2 tus ttz dt,
      DateTime.combine dy2 dm dd th tm ts2 tus ttz = .ok dt →
      DateTime.tzinfo dt = some tzUTC) ∧
    (∀ d dt, DateTime.copy d = .ok dt → DateTime.tzinfo dt = some tzUTC) ∧
    (∀ d a1 a2 a3 a4 a5 a6 a7 dt,
      DateTime.offset d a1 a2 a3 a4 a5 a6 a7 = .ok dt →
      DateTime.tzinfo dt = some tzUTC) ∧
    (∀ d r1 r2 r3 r4 r5 r6 r7 rt dt,
      DateTime.replace d r1 r2 r3 r4 r5 r6 r7 rt = .ok dt →
      DateTime.tzinfo dt = some tzUTC) ∧
    (∀ d t dt, DateTime.add d t = .ok dt → DateTime.tzinfo dt = some tzUTC) ∧
    (∀ a op dt, DateTime.subOp a op = .ok (.srDateTime dt) →
      DateTime.tzinfo dt = some tzUTC) := by
  refine ⟨?_, ?_, ?_, ?_, ?_, ?_, ?_, ?_, ?_, ?_, ?_, ?_⟩
  · intro y mo dy h mi s us tz dt h0
    exact ⟨init_tz h0, init_tz h0⟩
  · intro nv dt h0
    unfold DateTime.now DateTime.fromdatetime at h0
    exact init_tz h0
  · intro p dt h0
    unfold DateTime.parse DateTime.fromdatetime at h0
    exact init_tz h0
  · intro d dt h0
    exact fromdatetime_tz h0
  · intro t dt h0
    unfold DateTime.fromtimestamp at h0
    obtain ⟨nv, hnv, hfd⟩ := except_bind_ok.mp h0
    exact fromdatetime_tz hfd
  · intro n dt h0
    simp only [DateTime.fromordinal] at h0
    split at h0
    · exact fromdatetime_tz h0
    · exact Except.noConfusion h0
  · intro dy2 dm dd th tm ts2 tus ttz dt h0
    unfold DateTime.combine at h0
    exact fromdatetime_tz h0
  · intro d dt h0
    unfold DateTime.copy at h0
    exact fromdatetime_tz h0
  · intro d a1 a2 a3 a4 a5 a6 a7 dt h0
    unfold DateTime.offset at h0
    obtain ⟨t, ht, h1⟩ := except_bind_ok.mp h0
    obtain ⟨mv, hmv, h2⟩ := except_bind_ok.mp h1
    exact fromdatetime_tz h2
  · intro d r1 r2 r3 r4 r5 r6 r7 rt dt h0
    unfold DateTime.replace at h0
    exact init_tz h0
  · intro d t dt h0
    unfold DateTime.add at h0
    obtain ⟨mv, hmv, h1⟩ := except_bind_ok.mp h0
    exact fromdatetime_tz h1
  · intro a op dt h0
    cases op with
    | dtObj b =>
        simp only [DateTime.subOp] at h0
        exact SubResult.noConfusion (Except.ok.inj h0)
    | nativeDt b =>
        simp only [DateTime.subOp] at h0
        obtain ⟨nb, hnb, hp⟩ := except_bind_ok.mp h0
        exact SubResult.noConfusion (Except.ok.inj hp)
    | dur t =>
        simp only [DateTime.subOp] at h0
        obtain ⟨mv, hmv, hmap⟩ := except_bind_ok.mp h0
        obtain ⟨dd, hdd, hde⟩ := except_map_ok.mp hmap
        injection hde with h'
        subst h'
        exact fromdatetime_tz hdd

/-- The C2 invariant exercised at a concrete construction: building
2020-01-01T00:00 in the DST fixture zone stores 05:00 UTC with pytz.UTC
attached. -/
theorem c2_witness :
    DateTime.tzinfo ⟨⟨⟨2020, 1, 1, 5, 0, 0, 0⟩, some tzUTC⟩⟩ = some tzUTC :=
  (c2_utc_invariant.1 2020 1 1 0 0 0 0 (some (.pytzZone dstZone))
    ⟨⟨⟨2020, 1, 1, 5, 0, 0, 0⟩, some tzUTC⟩⟩ (by decide)).2

/-! ## Claim C3 -/

/-- A wall clock is nonexistent exactly when pytz's candidate-offset list
is empty. -/
theorem nonexistent_iff (z : PytzZone) (w : ℤ) :
    Nonexistent z w ↔ localizeOffsets z w = [] := by
  unfold Nonexistent ValidOffset localizeOffsets
  rw [List.dedup_eq_nil, List.filter_eq_nil_iff]
  constructor
  · intro hno o ho
    simp only [decide_eq_true_eq]
    exact fun hoff => hno o ⟨ho, hoff⟩
  · intro hall o hvo
    have h2 := hall o hvo.1
    simp only [decide_eq_true_eq] at h2
    exact h2 hvo.2

/-- An ok localization certifies its offset. -/
theorem localize_ok_valid (z : PytzZone) (w o : ℤ)
    (h : localize z w = .ok o) : ValidOffset z w o := by
  unfold localize at h
  cases hll : localizeOffsets z w with
  | nil =>
    rw [hll] at h
    exact Except.noConfusion h
  | cons a t =>
    cases t with
    | nil =>
      rw [hll] at h
      have ha : a = o := Except.ok.inj h
      subst ha
      have hmem : a ∈ localizeOffsets z w := by
        rw [hll]
        exact List.mem_singleton_self a
      unfold localizeOffsets at hmem
      rw [List.mem_dedup, List.mem_filter] at hmem
      refine ⟨hmem.1, ?_⟩
      have h2 := hmem.2
      simpa using h2
    | cons b t2 =>
      rw [hll] at h
      exact Except.noConfusion h

/-- C3: with valid wall-clock fields and a pytz-style (localize-capable)
zone, construction surfaces pytz's strict resolution errors: a nonexistent
(spring-forward) wall clock raises NonExistentTimeError and an ambiguous
(fall-back) one raises AmbiguousTimeError; it never silently picks an
offset. -/
theorem c3_dst_resolution_errors (y mo dy h mi s us : ℕ) (z : PytzZone)
    (hv : (NaiveDT.mk y mo dy h mi s us).valid) :
    (Nonexistent z ((NaiveDT.mk y mo dy h mi s us).toUs : ℤ) →
      DateTime.init y mo dy h mi s us (some (.pytzZone z))
        = .error .nonExistentTime) ∧
    (Ambiguous z ((NaiveDT.mk y mo dy h mi s us).toUs : ℤ) →
      DateTime.init y mo dy h mi s us (some (.pytzZone z))
        = .error .ambiguousTime) := by
  constructor
  · intro hne
    have hloc : localize z ((NaiveDT.mk y mo dy h mi s us).toUs : ℤ)
        = .error .nonExistentTime := by
      unfold localize
      rw [(nonexistent_iff z _).mp hne]
    simp only [DateTime.init]
    rw [if_pos hv, hloc]
    rfl
  · intro hamb
    obtain ⟨o1, o2, hv1, hv2, hne12⟩ := hamb
    have hm1 : o1 ∈ localizeOffsets z ((NaiveDT.mk y mo dy h mi s us).toUs : ℤ) := by
      unfold localizeOffsets
      rw [List.mem_dedup, List.mem_filter]
      exact ⟨hv1.1, by simpa using hv1.2⟩
    have hm2 : o2 ∈ localizeOffsets z ((NaiveDT.mk y mo dy h mi s us).toUs : ℤ) := by
      unfold localizeOffsets
      rw [List.mem_dedup, List.mem_filter]
      exact ⟨hv2.1, by simpa using hv2.2⟩
    have hloc : localize z ((NaiveDT.mk y mo dy h mi s us).toUs : ℤ)
        = .error .ambiguousTime := by
      unfold localize
      cases hll : localizeOffsets z ((NaiveDT.mk y mo dy h mi s us).toUs : ℤ) with
      | nil =>
        rw [hll] at hm1
        exact absurd hm1 (List.not_mem_nil o1)
      | cons a t =>
        cases t with
        | nil =>
          rw [hll] at hm1 hm2
          rw [List.mem_singleton] at hm1 hm2
          exact absurd (hm1.trans hm2.symm) hne12
        | cons b t2 => rfl
    simp only [DateTime.init]
    rw [if_pos hv, hloc]
    rfl

/-- The C3 errors at the DST fixture: 02:30 during the 2020-03-08
spring-forward gap does not exist, and 01:30 during the 2020-11-01
fall-back overlap is ambiguous. -/
theorem c3_witness :
    DateTime.init 2020 3 8 2 30 0 0 (some (.pytzZone dstZone))
      = .error .nonExistentTime ∧
    DateTime.init 2020 11 1 1 30 0 0 (some (.pytzZone dstZone))
      = .error .ambiguousTime := by
  constructor
  · refine (c3_dst_resolution_errors 2020 3 8 2 30 0 0 dstZone (by decide)).1 ?_
    rw [nonexistent_iff]
    decide
  · exact (c3_dst_resolution_errors 2020 11 1 1 30 0 0 dstZone (by decide)).2
      ⟨-4 * 3600000000, -5 * 3600000000, by decide, by decide, by decide⟩

/-! ## Claim C6 -/

/-- pytz.UTC applies offset 0 at every instant. -/
theorem offsetAtUtc_utc (x : ℤ) : offsetAtUtc utcZone x = 0 := rfl

/-- Inversion of the primary constructor on the pytz-zone path: an ok
result certifies valid fields, an ok strict localization at some offset o,
and the stored instant is the UTC conversion wall clock minus o. -/
theorem init_pytz_ok {y mo dy h mi s us : ℕ} {z : PytzZone} {dt : DateTime}
    (h0 : DateTime.init y mo dy h mi s us (some (.pytzZone z)) = .ok dt) :
    ∃ o : ℤ,
      (NaiveDT.mk y mo dy h mi s us).valid ∧
      localize z ((NaiveDT.mk y mo dy h mi s us).toUs : ℤ) = .ok o ∧
      0 ≤ ((NaiveDT.mk y mo dy h mi s us).toUs : ℤ) - o ∧
      ((NaiveDT.mk y mo dy h mi s us).toUs : ℤ) - o < 3652059 * 86400000000 ∧
      dt = ⟨⟨usToNaive (((NaiveDT.mk y mo dy h mi s us).toUs : ℤ) - o).toNat,
             some tzUTC⟩⟩ := by
  simp only [DateTime.init] at h0
  by_cases hv : (NaiveDT.mk y mo dy h mi s us).valid
  · rw [if_pos hv] at h0
    obtain ⟨dtLoc, hM, hf⟩ := except_bind_ok.mp h0
    obtain ⟨o, hloc, hfn⟩ := except_map_ok.mp hM
    subst hfn
    simp only [awareAstimezone, Datetime.instant, Option.map_some',
      Option.getD_some, Tz.utcoffset, offsetAtUtc_utc, add_zero] at hf
    obtain ⟨d1, hd1, hd1e⟩ := except_map_ok.mp hf
    obtain ⟨nv, hnv, hnve⟩ := except_map_ok.mp hd1
    subst hd1e
    subst hnve
    unfold usToNaiveE at hnv
    split at hnv
    next hcond =>
      refine ⟨o, hv, hloc, hcond.1, hcond.2, ?_⟩
      rw [← Except.ok.inj hnv]
      rfl
    next hcond => exact Except.noConfusion hnv
  · rw [if_neg hv] at h0
    exact Except.noConfusion h0

/-- Inversion of the primary constructor on the fixed-offset path: the
fields are attached directly (no localization check) and the stored
instant is wall clock minus the fixed offset. -/
theorem init_fixed_ok {y mo dy h mi s us : ℕ} {off : ℤ} {dt : DateTime}
    (h0 : DateTime.init y mo dy h mi s us (some (.fixedZone off)) = .ok dt) :
    (NaiveDT.mk y mo dy h mi s us).valid ∧
    0 ≤ ((NaiveDT.mk y mo dy h mi s us).toUs : ℤ) - off ∧
    ((NaiveDT.mk y mo dy h mi s us).toUs : ℤ) - off < 3652059 * 86400000000 ∧
    dt = ⟨⟨usToNaive (((NaiveDT.mk y mo dy h mi s us).toUs : ℤ) - off).toNat,
           some tzUTC⟩⟩ := by
  simp only [DateTime.init] at h0
  by_cases hv : (NaiveDT.mk y mo dy h mi s us).valid
  · rw [if_pos hv] at h0
    obtain ⟨dtLoc, hM, hf⟩ := except_bind_ok.mp h0
    have hM2 := Except.ok.inj hM
    subst hM2
    simp only [awareAstimezone, Datetime.instant, Option.map_some',
      Option.getD_some, Tz.utcoffset, offsetAtUtc_utc, add_zero] at hf
    obtain ⟨d1, hd1, hd1e⟩ := except_map_ok.mp hf
    obtain ⟨nv, hnv, hnve⟩ := except_map_ok.mp hd1
    subst hd1e
    subst hnve
    unfold usToNaiveE at hnv
    split at hnv
    next hcond =>
      refine ⟨hv, hcond.1, hcond.2, ?_⟩
      rw [← Except.ok.inj hnv]
      rfl
    next hcond => exact Except.noConfusion hnv
  · rw [if_neg hv] at h0
    exact Except.noConfusion h0

/-- C6: building a DateTime from wall-clock fields in a zone that accepts
them, then viewing it back in the same zone with astimezone, reproduces
the original wall-clock components exactly — for a pytz-style zone via its
unique localization offset, and likewise for a fixed-offset tzinfo. -/
theorem c6_astimezone_roundtrip (y mo dy h mi s us : ℕ) :
    (∀ (z : PytzZone) (dt : DateTime),
      DateTime.init y mo dy h mi s us (some (.pytzZone z)) = .ok dt →
      (DateTime.astimezone dt (.pytzZone z)).map Datetime.naive
        = .ok (NaiveDT.mk y mo dy h mi s us)) ∧
    (∀ (off : ℤ) (dt : DateTime),
      DateTime.init y mo dy h mi s us (some (.fixedZone off)) = .ok dt →
      (DateTime.astimezone dt (.fixedZone off)).map Datetime.naive
        = .ok (NaiveDT.mk y mo dy h mi s us)) := by
  constructor
  · intro z dt h0
    obtain ⟨o, hv, hloc, hge, hlt, hdt⟩ := init_pytz_ok h0
    subst hdt
    have hvo := localize_ok_valid z _ o hloc
    have hsp := usToNaive_spec ((((NaiveDT.mk y mo dy h mi s us).toUs : ℤ)) - o).toNat
      (by omega)
    have htou : ((usToNaive ((((NaiveDT.mk y mo dy h mi s us).toUs : ℤ)) - o).toNat).toUs : ℤ)
        = (((NaiveDT.mk y mo dy h mi s us).toUs : ℤ)) - o := by
      rw [hsp.2]
      omega
    simp only [DateTime.astimezone, awareAstimezone, Datetime.instant,
      Option.map_some', Option.getD_some, Tz.utcoffset, tzUTC, sub_zero]
    rw [htou, hvo.2, sub_add_cancel]
    unfold usToNaiveE
    rw [if_pos ⟨Int.natCast_nonneg _, by exact_mod_cast toUs_lt _ hv⟩,
      Int.toNat_natCast, usToNaive_toUs _ hv]
    rfl
  · intro off dt h0
    obtain ⟨hv, hge, hlt, hdt⟩ := init_fixed_ok h0
    subst hdt
    have hsp := usToNaive_spec ((((NaiveDT.mk y mo dy h mi s us).toUs : ℤ)) - off).toNat
      (by omega)
    have htou : ((usToNaive ((((NaiveDT.mk y mo dy h mi s us).toUs : ℤ)) - off).toNat).toUs : ℤ)
        = (((NaiveDT.mk y mo dy h mi s us).toUs : ℤ)) - off := by
      rw [hsp.2]
      omega
    simp only [DateTime.astimezone, awareAstimezone, Datetime.instant,
      Option.map_some', Option.getD_some, Tz.utcoffset, tzUTC, sub_zero]
    rw [htou, sub_add_cancel]
    unfold usToNaiveE
    rw [if_pos ⟨Int.natCast_nonneg _, by exact_mod_cast toUs_lt _ hv⟩,
      Int.toNat_natCast, usToNaive_toUs _ hv]
    rfl

/-- The C6 round trip at the DST fixture: midnight 2020-01-01 in the
example zone (stored as 05:00 UTC) viewed back in that zone is midnight
2020-01-01 again. -/
theorem c6_witness :
    (DateTime.astimezone ⟨⟨⟨2020, 1, 1, 5, 0, 0, 0⟩, some tzUTC⟩⟩
        (.pytzZone dstZone)).map Datetime.naive
      = .ok (NaiveDT.mk 2020 1 1 0 0 0 0) :=
  (c6_astimezone_roundtrip 2020 1 1 0 0 0 0).1 dstZone
    ⟨⟨⟨2020, 1, 1, 5, 0, 0, 0⟩, some tzUTC⟩⟩ (by decide)

/-! ## Claim C7 -/

/-- Sequencing a pure value is application of the continuation. -/
theorem bind_pure_step {α β : Type} (a : α) (f : α → Except Err β) :
    ((pure a : Except Err α) >>= f) = f a := rfl

/-- The primary constructor with the pytz.UTC zone: localization always
fixes offset 0, so the result is exactly the given fields tagged UTC, or
ValueError on invalid fields. -/
theorem init_utc_eval (y mo dy h mi s us : ℕ) :
    DateTime.init y mo dy h mi s us (some (.pytzZone utcZone))
      = if (NaiveDT.mk y mo dy h mi s us).valid
        then .ok ⟨⟨NaiveDT.mk y mo dy h mi s us, some tzUTC⟩⟩
        else .error .valueRange := by
  by_cases hv : (NaiveDT.mk y mo dy h mi s us).valid
  · rw [if_pos hv]
    simp only [DateTime.init]
    rw [if_pos hv]
    have hloc : localize utcZone ((NaiveDT.mk y mo dy h mi s us).toUs : ℤ)
        = .ok 0 := rfl
    rw [hloc]
    refine except_bind_ok.mpr
      ⟨⟨NaiveDT.mk y mo dy h mi s us, some (.localized utcZone 0)⟩, rfl, ?_⟩
    simp only [awareAstimezone, Datetime.instant, Option.map_some',
      Option.getD_some, Tz.utcoffset, offsetAtUtc_utc, add_zero, sub_zero]
    unfold usToNaiveE
    rw [if_pos ⟨Int.natCast_nonneg _, by exact_mod_cast toUs_lt _ hv⟩,
      Int.toNat_natCast, usToNaive_toUs _ hv]
    rfl
  · rw [if_neg hv]
    simp only [DateTime.init]
    rw [if_neg hv]

/-- A null zone argument routes through the same pytz.UTC localization as
an explicit pytz.UTC. -/
theorem init_none_eq (y mo dy h mi s us : ℕ) :
    DateTime.init y mo dy h mi s us none
      = DateTime.init y mo dy h mi s us (some (.pytzZone utcZone)) := rfl

/-- C7: replace starts from the canonical UTC components, overwrites
exactly the explicitly supplied parameters, and rebuilds through the
primary constructor: with the zone parameter left as the Missing sentinel
the new field tuple is revalidated and stored with UTC kept and every
unsupplied component unchanged; with every parameter Missing the result is
a value-equal copy; and an explicitly supplied null tzinfo is passed to
the constructor as no-zone (naive reinterpretation), unlike the
keep-current sentinel. -/
theorem c7_replace_frame :
    (∀ d : DateTime, d.WF → ∀ y' mo' dy' h' mi' s' us' : ReplArg ℕ,
      DateTime.replace d y' mo' dy' h' mi' s' us' .missing
        = if (NaiveDT.mk (y'.getD d.datetime.naive.year)
              (mo'.getD d.datetime.naive.month) (dy'.getD d.datetime.naive.day)
              (h'.getD d.datetime.naive.hour) (mi'.getD d.datetime.naive.minute)
              (s'.getD d.datetime.naive.second)
              (us'.getD d.datetime.naive.microsecond)).valid
          then .ok ⟨⟨NaiveDT.mk (y'.getD d.datetime.naive.year)
              (mo'.getD d.datetime.naive.month) (dy'.getD d.datetime.naive.day)
              (h'.getD d.datetime.naive.hour) (mi'.getD d.datetime.naive.minute)
              (s'.getD d.datetime.naive.second)
              (us'.getD d.datetime.naive.microsecond), some tzUTC⟩⟩
          else .error .valueRange) ∧
    (∀ d : DateTime, d.WF →
      DateTime.replace d .missing .missing .missing .missing .missing .missing
        .missing .missing = .ok d) ∧
    (∀ (d : DateTime) (y' mo' dy' h' mi' s' us' : ReplArg ℕ),
      DateTime.replace d y' mo' dy' h' mi' s' us' (.given none)
        = DateTime.init (y'.getD d.datetime.naive.year)
            (mo'.getD d.datetime.naive.month) (dy'.getD d.datetime.naive.day)
            (h'.getD d.datetime.naive.hour) (mi'.getD d.datetime.naive.minute)
            (s'.getD d.datetime.naive.second)
            (us'.getD d.datetime.naive.microsecond) none) := by
  refine ⟨?_, ?_, ?_⟩
  · intro d hwf y' mo' dy' h' mi' s' us'
    obtain ⟨htz, hval⟩ := hwf
    unfold DateTime.replace
    rw [htz]
    show DateTime.init _ _ _ _ _ _ _ (some (.pytzZone utcZone)) = _
    exact init_utc_eval _ _ _ _ _ _ _
  · intro d hwf
    obtain ⟨htz, hval⟩ := hwf
    rcases d with ⟨⟨nv, tz⟩⟩
    rcases nv with ⟨ny, nmo, ndy, nh, nmi, ns, nus⟩
    have htz2 : tz = some tzUTC := htz
    subst htz2
    unfold DateTime.replace
    show DateTime.init _ _ _ _ _ _ _ (some (.pytzZone utcZone)) = _
    rw [init_utc_eval]
    simp only [ReplArg.getD]
    rw [if_pos (show (NaiveDT.mk ny nmo ndy nh nmi ns nus).valid from hval)]
  · intro d y' mo' dy' h' mi' s' us'
    rfl

/-- C7 at the epoch value: replacing only the year gives 2000-01-01 with
every other component kept, no arguments give back the epoch value, and an
explicit null zone routes through the no-zone constructor. -/
theorem c7_witness :
    DateTime.replace epochDT (.given 2000) .missing .missing .missing .missing
      .missing .missing .missing
      = .ok ⟨⟨⟨2000, 1, 1, 0, 0, 0, 0⟩, some tzUTC⟩⟩ ∧
    DateTime.replace epochDT .missing .missing .missing .missing .missing
      .missing .missing .missing = .ok epochDT ∧
    DateTime.replace epochDT .missing .missing .missing .missing .missing
      .missing .missing (.given none)
      = DateTime.init 1970 1 1 0 0 0 0 none := by
  refine ⟨?_, c7_replace_frame.2.1 epochDT (by decide), ?_⟩
  · rw [c7_replace_frame.1 epochDT (by decide) (.given 2000) .missing .missing
      .missing .missing .missing .missing]
    decide
  · exact c7_replace_frame.2.2 epochDT .missing .missing .missing .missing
      .missing .missing .missing

/-! ## Claim C10 -/

/-- C10: a zone argument without a localize capability (a fixed-offset
tzinfo) is attached to the wall-clock fields directly — no ambiguity or
nonexistence check ever runs, whatever the offset — and the result is the
UTC conversion of wall clock minus that offset (failing only when that
instant overflows the supported range). -/
theorem c10_fixed_offset_attach (y mo dy h mi s us : ℕ) (off : ℤ)
    (hv : (NaiveDT.mk y mo dy h mi s us).valid) :
    DateTime.init y mo dy h mi s us (some (.fixedZone off))
      = (usToNaiveE (((NaiveDT.mk y mo dy h mi s us).toUs : ℤ) - off)).map
          (fun nv => ⟨⟨nv, some tzUTC⟩⟩) := by
  simp only [DateTime.init]
  rw [if_pos hv, bind_pure_step]
  simp only [awareAstimezone, Datetime.instant, Option.map_some',
    Option.getD_some, Tz.utcoffset, offsetAtUtc_utc, add_zero]
  cases husE : usToNaiveE (((NaiveDT.mk y mo dy h mi s us).toUs : ℤ) - off) <;> rfl

/-- C10 at a concrete fixed offset: midnight 2020-01-01 at UTC-5 stores
05:00 UTC. -/
theorem c10_witness :
    DateTime.init 2020 1 1 0 0 0 0 (some (.fixedZone (-5 * 3600000000)))
      = (usToNaiveE (((NaiveDT.mk 2020 1 1 0 0 0 0).toUs : ℤ)
            - (-5 * 3600000000))).map (fun nv => ⟨⟨nv, some tzUTC⟩⟩) :=
  c10_fixed_offset_attach 2020 1 1 0 0 0 0 (-5 * 3600000000) (by decide)

end Zulu
